import Mathlib

/-!
Verification of the classification-and-cache pipeline of the claude-redditor
repository: a shallow embedding, in Lean 4, of the post/classification data
model (`core/models.py`, `core/enums.py`), the classification batcher
(`classifier.py`), the cache-aware analysis engine (`analyzer.py`), the
repository operations over the cache store (`db/repository.py`) and the digest
generator (`digest.py`), together with proofs and refutations of the spec's
testable properties.

Conventions: Python floats are embedded as `Rat`; timestamps as `Nat`;
`None` as `Option.none`; an exception raised by a function is an `Except`
error value.  Mutable database state is passed explicitly as a `DB` value.
-/

/-! ## Category taxonomy (`core/enums.py`) -/

/-- Embeds `CategoryEnum` of `core/enums.py`: the closed category taxonomy. -/
inductive CategoryEnum
  | technical
  | troubleshooting
  | research_verified
  | mystical
  | unverified_claim
  | engagement_bait
  | community
  | meme
  | outlier
  | unrelated
deriving DecidableEq, Repr

/-- The `.value` string of each `CategoryEnum` member. -/
def CategoryEnum.value : CategoryEnum → String
  | .technical => "technical"
  | .troubleshooting => "troubleshooting"
  | .research_verified => "research_verified"
  | .mystical => "mystical"
  | .unverified_claim => "unverified_claim"
  | .engagement_bait => "engagement_bait"
  | .community => "community"
  | .meme => "meme"
  | .outlier => "outlier"
  | .unrelated => "unrelated"

/-- Embeds the `CategoryEnum(label)` constructor call: `some` member whose
value equals the label, `none` when the label is invalid (Python raises
`ValueError`). -/
def CategoryEnum.ofString (label : String) : Option CategoryEnum :=
  [CategoryEnum.technical, .troubleshooting, .research_verified, .mystical,
   .unverified_claim, .engagement_bait, .community, .meme, .outlier,
   .unrelated].find? (fun c => c.value = label)

/-- Embeds `CategoryEnum.signal_categories`. -/
def CategoryEnum.signal_categories : List CategoryEnum :=
  [.technical, .troubleshooting, .research_verified]

/-- Embeds `CategoryEnum.noise_categories`. -/
def CategoryEnum.noise_categories : List CategoryEnum :=
  [.mystical, .unverified_claim, .engagement_bait]

/-- Embeds `CategoryEnum.is_signal`. -/
def CategoryEnum.is_signal (category : CategoryEnum) : Bool :=
  category ∈ CategoryEnum.signal_categories

/-! ## Data model (`core/models.py`) -/

/-- Embeds the `RedditPost` dataclass of `core/models.py` (also the shape of
the post dicts produced by the scrapers and consumed by
`analyze_with_cache`). -/
structure RedditPost where
  id : String
  title : String
  selftext : String
  author : String
  score : Int
  num_comments : Int
  created_utc : Int
  url : String
  subreddit : String
  flair : Option String := none
deriving DecidableEq, Repr

/-- Embeds the `Classification` dataclass of `core/models.py`. -/
structure Classification where
  post_id : String
  category : CategoryEnum
  confidence : Rat
  red_flags : List String := []
  reasoning : String := ""
  topic_tags : List String := []
  format_tag : Option String := none
  tier_tags : Option (List (String × List String)) := none
  tier_clusters : List String := []
  tier_scoring : Option Int := none
deriving DecidableEq, Repr

/-! ## Category Normalizer (`classifier.py` lines 14–24 and 190–212) -/

/-- Embeds the `CATEGORY_CORRECTIONS` table of `classifier.py`: maps invalid
labels the model tends to emit onto valid taxonomy values. -/
def CATEGORY_CORRECTIONS : List (String × String) :=
  [("discussion", "community"),
   ("news", "technical"),
   ("signal", "technical"),
   ("noise", "unverified_claim"),
   ("meta", "community"),
   ("question", "community"),
   ("showcase", "technical"),
   ("tutorial", "technical"),
   ("resource", "technical")]

/-- One raw item of the JSON array returned by the model for a category
batch, restricted to the fields that `_classify_batch` reads.  The claims
under study concern the category label; the other fields are taken as already
well-typed. -/
structure RawItem where
  post_id : String
  category : String
  confidence : Rat
  red_flags : List String := []
  reasoning : String := ""
  topic_tags : List String := []
  format_tag : Option String := none
deriving DecidableEq, Repr

/-- The category-correction step inside `_classify_batch` (lines 193–198):
if the raw label is a key of `CATEGORY_CORRECTIONS` it is replaced by the
mapped value, otherwise it is kept. -/
def correctCategory (label : String) : String :=
  match (CATEGORY_CORRECTIONS.find? (fun kv => kv.1 = label)) with
  | some kv => kv.2
  | none => label

/-- Embeds the per-item conversion inside `_classify_batch` (lines 191–211):
build a `Classification` from a raw item; a label that is still invalid
after correction makes `CategoryEnum(category)` raise, which the
`except (KeyError, ValueError)` handler turns into dropping the item. -/
def parseClassification (item : RawItem) : Option Classification :=
  match CategoryEnum.ofString (correctCategory item.category) with
  | some cat =>
      some { post_id := item.post_id
             category := cat
             confidence := item.confidence
             red_flags := item.red_flags
             reasoning := item.reasoning
             topic_tags := item.topic_tags
             format_tag := item.format_tag }
  | none => none

/-- The whole conversion loop of `_classify_batch` over the extracted JSON
array: items that fail to parse are dropped, the rest are returned in
order. -/
def parseClassifications (items : List RawItem) : List Classification :=
  items.filterMap parseClassification

/-! ## Analyzer metrics (`analyzer.py` `PostAnalyzer.analyze`) -/

/-- The fields of `AnalysisReport` that the analyzed claims mention. -/
structure AnalysisReport where
  total_posts : Nat
  signal_ratio : Rat
  unrelated_count : Nat
deriving DecidableEq, Repr

/-- Embeds the metric computation of `PostAnalyzer.analyze`
(`analyzer.py` lines 17–117): the length-mismatch guard raises (modelled as
`none`), `unrelated` classifications are counted, and the signal ratio is the
number of signal classifications among the non-`unrelated` ones divided by
the number of non-`unrelated` ones (0 when that set is empty). -/
def analyze (posts : List RedditPost) (classifications : List Classification) :
    Option AnalysisReport :=
  if posts.length ≠ classifications.length then none
  else
    let unrelated_count :=
      (classifications.filter (fun c => c.category = CategoryEnum.unrelated)).length
    let relevant :=
      classifications.filter (fun c => c.category ≠ CategoryEnum.unrelated)
    let signal_count :=
      (relevant.filter (fun c => CategoryEnum.is_signal c.category)).length
    let signal_ratio : Rat :=
      if relevant.length = 0 then 0 else (signal_count : Rat) / (relevant.length : Rat)
    some { total_posts := posts.length
           signal_ratio := signal_ratio
           unrelated_count := unrelated_count }

/-! ## Cache store rows and repository operations (`db/repository.py`)

The ORM column set is the one written and read by `repository.py` (and listed
in the spec's persisted shape): the `classifications` table is keyed by the
unique `(post_id, source, project)` triple. -/

/-- A row of the `classifications` table, with the columns `repository.py`
reads and writes. -/
structure StoredClassification where
  post_id : String
  source : String
  project : String
  category : String
  confidence : Rat
  red_flags : List String
  reasoning : String
  model_version : String
  topic_tags : List String
  format_tag : Option String
  classified_at : Nat
  sent_in_digest_at : Option Nat
deriving DecidableEq, Repr

/-- A row of the `posts` table, with the columns `repository.py` reads and
writes. -/
structure StoredPost where
  id : String
  source : String
  project : String
  subreddit : Option String
  title : String
  author : Option String
  score : Int
  num_comments : Int
  created_utc : Int
  url : Option String
  selftext : String
deriving DecidableEq, Repr

/-- The cache store state: the two tables the analyzed claims touch. -/
structure DB where
  posts : List StoredPost
  classifications : List StoredClassification
deriving DecidableEq, Repr

/-- The classification dict shape passed to `Repository.save_classifications`
(the caller in `analyze_with_cache` builds it with `post_id`, `category`,
`confidence`, `red_flags`, `reasoning`; the remaining keys are read with
`.get` defaults). -/
structure ClsDict where
  post_id : String
  category : String
  confidence : Rat
  red_flags : List String := []
  reasoning : String := ""
  topic_tags : List String := []
  format_tag : Option String := none
deriving DecidableEq, Repr

/-- Whether a stored classification row matches the unique upsert key. -/
def keyMatches (post_id source project : String) (r : StoredClassification) : Bool :=
  r.post_id = post_id ∧ r.source = source ∧ r.project = project

/-- One `INSERT ... ON DUPLICATE KEY UPDATE` statement of
`Repository.save_classifications` (lines 84–113): on conflict it updates
`source`, `project`, `category`, `confidence`, `red_flags`, `reasoning`,
`model_version`, `topic_tags`, `format_tag` and `classified_at = now()` —
and nothing else, in particular not `sent_in_digest_at`; otherwise it inserts
a fresh row whose `sent_in_digest_at` is null. -/
def upsertClassification (source model_version project : String) (now : Nat)
    (rows : List StoredClassification) (d : ClsDict) : List StoredClassification :=
  if rows.any (keyMatches d.post_id source project) then
    rows.map (fun r =>
      if keyMatches d.post_id source project r then
        { r with category := d.category
                 confidence := d.confidence
                 red_flags := d.red_flags
                 reasoning := d.reasoning
                 model_version := model_version
                 topic_tags := d.topic_tags
                 format_tag := d.format_tag
                 classified_at := now }
      else r)
  else
    rows ++ [{ post_id := d.post_id
               source := source
               project := project
               category := d.category
               confidence := d.confidence
               red_flags := d.red_flags
               reasoning := d.reasoning
               model_version := model_version
               topic_tags := d.topic_tags
               format_tag := d.format_tag
               classified_at := now
               sent_in_digest_at := none }]

/-- Embeds `Repository.save_classifications` (lines 63–115): upsert each
dict in order. -/
def save_classifications (db : DB) (classifications : List ClsDict)
    (source : String) (model_version : String) (project : String) (now : Nat) : DB :=
  { db with classifications :=
      (classifications.foldl (upsertClassification source model_version project now)
        db.classifications) }

/-- Embeds `Repository.save_posts` (lines 119–155): insert each post dict
whose id is not present yet (`INSERT IGNORE` semantics via the existence
check). -/
def save_posts (db : DB) (posts : List RedditPost) (source : String) (project : String) : DB :=
  { db with posts :=
      posts.foldl (fun rows p =>
        if rows.any (fun r => r.id = p.id) then rows
        else rows ++ [{ id := p.id
                        source := source
                        project := project
                        subreddit := some p.subreddit
                        title := p.title
                        author := some p.author
                        score := p.score
                        num_comments := p.num_comments
                        created_utc := p.created_utc
                        url := some p.url
                        selftext := p.selftext }]) db.posts }

/-- Embeds `Repository.mark_posts_as_sent_in_digest` (lines 318–347): set
`sent_in_digest_at = now()` on every classification row whose `post_id` is in
the batch and whose `project` matches. -/
def mark_posts_as_sent_in_digest (db : DB) (post_ids : List String)
    (project : String) (now : Nat) : DB :=
  { db with classifications :=
      db.classifications.map (fun r =>
        if r.post_id ∈ post_ids ∧ r.project = project then
          { r with sent_in_digest_at := some now }
        else r) }

/-- Embeds `Repository.get_cached_classifications` (lines 25–61): the join of
`classifications` with `posts` on `post_id`, restricted to the requested ids,
source and project. -/
def get_cached_classifications (db : DB) (post_ids : List String)
    (source : String) (project : String) : List (StoredClassification × StoredPost) :=
  db.classifications.filterMap (fun c =>
    if c.post_id ∈ post_ids ∧ c.source = source ∧ c.project = project then
      (db.posts.find? (fun p => p.id = c.post_id)).map (fun p => (c, p))
    else none)

/-- One item of the list `Repository.get_signal_posts_for_digest` returns:
the post dict, the classification dict, and the truncation flag. -/
structure DigestItem where
  post : StoredPost
  classification : StoredClassification
  selftext_truncated : Bool
deriving DecidableEq, Repr

/-- The `ORDER BY score DESC, confidence DESC` comparator of
`get_signal_posts_for_digest`. -/
def digestOrder (a b : StoredPost × StoredClassification) : Bool :=
  b.1.score < a.1.score ∨ (a.1.score = b.1.score ∧ b.2.confidence ≤ a.2.confidence)

/-- Insert into a list sorted by `le`. -/
def insertSorted (le : α → α → Bool) (x : α) : List α → List α
  | [] => [x]
  | y :: ys => if le x y then x :: y :: ys else y :: insertSorted le x ys

/-- Sort a list by the comparator `le` (insertion sort, standing for the SQL
`ORDER BY`). -/
def sortBy (le : α → α → Bool) : List α → List α
  | [] => []
  | x :: xs => insertSorted le x (sortBy le xs)

/-- Embeds `Repository.get_signal_posts_for_digest` (lines 275–316): select
joined rows whose category is a signal category, whose `sent_in_digest_at` is
null and whose confidence reaches the threshold, order them by score then
confidence descending, and cap at `limit`. -/
def get_signal_posts_for_digest (db : DB) (project : String) (limit : Nat)
    (min_confidence : Rat) : List DigestItem :=
  let joined := db.classifications.filterMap (fun c =>
    if c.project = project ∧
       c.category ∈ ["technical", "troubleshooting", "research_verified"] ∧
       c.sent_in_digest_at = none ∧
       min_confidence ≤ c.confidence then
      (db.posts.find? (fun p => p.id = c.post_id)).map (fun p => (p, c))
    else none)
  ((sortBy digestOrder joined).take limit).map (fun pc =>
    { post := pc.1
      classification := pc.2
      selftext_truncated := pc.1.selftext.length = 5000 })

/-! ## Digest generation (`digest.py` `DigestGenerator.generate_both`)

The generator's interactions with the outside world (the per-post article
generation through the LLM, the markdown file write and the JSON file write)
are abstracted as an environment of fallible operations; the sequence of
store/filesystem effects the call performs is recorded as a trace, so the
claims about call counts and ordering are statable. -/

/-- The default `min_confidence = 0.7` of `get_signal_posts_for_digest`,
written as the already-reduced rational `7/10` so that concrete executions
evaluate inside the kernel. -/
def defaultMinConfidence : Rat := ⟨7, 10, by decide, by decide⟩

/-- The article dict `_generate_article` returns for one post. -/
structure Article where
  article_title : String
  article_body : String
  radio_commentary : String
deriving DecidableEq, Repr

/-- Environment of `generate_both`: `processPost` embeds `_process_post`
(returns `none` when article generation failed for that post, which skips
it), and the two write operations embed the markdown generation
(`_write_markdown`) and the JSON build-and-write block, each of which can
raise. -/
structure DigestEnv where
  processPost : DigestItem → Option Article
  writeMd : List (DigestItem × Article) → Except Unit Unit
  writeJson : List (DigestItem × Article) → Except Unit Unit

/-- Observable effects of one `generate_both` call, in order. -/
inductive DigestEffect
  | query
  | writeMd
  | writeJson
  | mark (post_ids : List String)
deriving DecidableEq, Repr

/-- Failure modes of `generate_both`: the two `ValueError`s it raises itself
and the propagated format-generation failures. -/
inductive DigestError
  | noPosts
  | noArticles
  | mdFailed
  | jsonFailed
deriving DecidableEq, Repr

/-- One markdown digest section: the fields of `_write_markdown`'s per-story
block are drawn from this post and article. -/
structure MdSection where
  post : StoredPost
  article : Article
deriving DecidableEq, Repr

/-- The markdown digest document, as its ordered list of story sections. -/
structure MdDoc where
  sections : List MdSection
deriving DecidableEq, Repr

/-- One story of the JSON digest, as built by `_build_story`
(`digest.py` lines 598–638). -/
structure Story where
  post_id : String
  title : String
  author : Option String
  url : Option String
  score : Int
  num_comments : Int
  category : String
  confidence : Rat
  topic_tags : List String
  format_tag : Option String
  red_flags : List String
  reasoning : String
deriving DecidableEq, Repr

/-- Embeds `_build_story`: denormalize one digest item into a JSON story. -/
def build_story (item : DigestItem) : Story :=
  { post_id := item.post.id
    title := item.post.title
    author := item.post.author
    url := item.post.url
    score := item.post.score
    num_comments := item.post.num_comments
    category := item.classification.category
    confidence := item.classification.confidence
    topic_tags := item.classification.topic_tags
    format_tag := item.classification.format_tag
    red_flags := item.classification.red_flags
    reasoning := item.classification.reasoning }

/-- The JSON digest document, as its ordered list of stories. -/
structure JsonDoc where
  stories : List Story
deriving DecidableEq, Repr

/-- Result of one `generate_both` call: the outcome, the effect trace, and
the store state afterwards. -/
structure GenerateBothResult where
  result : Except DigestError (MdDoc × JsonDoc)
  trace : List DigestEffect
  db : DB
deriving Repr

/-- Embeds `DigestGenerator.generate_both` (`digest.py` lines 128–253).
The candidate set is queried once; each candidate is processed into an
article (failures skip the post); the markdown is written, then the JSON is
written from the same `articles` list; only after both writes succeed are
the processed post ids marked as sent.  Any raised error propagates before
the mark step, leaving the store untouched. -/
def generate_both (env : DigestEnv) (db : DB) (project : String) (limit : Nat)
    (now : Nat) : GenerateBothResult :=
  let posts_data := get_signal_posts_for_digest db project limit defaultMinConfidence
  if posts_data.isEmpty then
    { result := .error .noPosts, trace := [.query], db := db }
  else
    let articles := posts_data.filterMap (fun item =>
      (env.processPost item).map (fun a => (item, a)))
    let processed_ids := articles.map (fun ia => ia.1.post.id)
    if articles.isEmpty then
      { result := .error .noArticles, trace := [.query], db := db }
    else
      match env.writeMd articles with
      | .error _ => { result := .error .mdFailed, trace := [.query], db := db }
      | .ok _ =>
        let md : MdDoc := { sections := articles.map (fun ia => { post := ia.1.post, article := ia.2 }) }
        match env.writeJson articles with
        | .error _ =>
            { result := .error .jsonFailed, trace := [.query, .writeMd], db := db }
        | .ok _ =>
          let json : JsonDoc := { stories := articles.map (fun ia => build_story ia.1) }
          { result := .ok (md, json)
            trace := [.query, .writeMd, .writeJson, .mark processed_ids]
            db := mark_posts_as_sent_in_digest db processed_ids project now }

/-! ## Classification batcher (`classifier.py` `PostClassifier.classify_posts`)

The Claude API boundary is abstracted as an oracle: a post either triggers a
provider refusal or yields a raw response item; a batch request is refused
exactly when it contains a refusing post (the refusal-degradation scenario of
the spec).  `_classify_batch` is then the API call followed by the response
parse loop embedded above. -/

/-- The two failure classes `classify_posts` distinguishes on a `ValueError`:
a provider refusal (the message contains "refusal") and anything else. -/
inductive ApiError
  | refusal
  | other
deriving DecidableEq, Repr

/-- Provider model for the category pass: `refused p` says the provider
declines any batch containing `p`; `response p` is the raw JSON item the
model returns for `p` in a successful batch. -/
structure ClassifyOracle where
  refused : RedditPost → Bool
  response : RedditPost → RawItem

/-- Embeds `PostClassifier._classify_batch` (lines 146–218) over the oracle:
a batch containing refused content raises the refusal `ValueError`; otherwise
the response items are parsed, dropping invalid ones. -/
def classify_batch (o : ClassifyOracle) (batch : List RedditPost) :
    Except ApiError (List Classification) :=
  if batch.any o.refused then .error .refusal
  else .ok (parseClassifications (batch.map o.response))

/-- Fuel-indexed worker for `chunkBatches`; the fuel is instantiated with the
list length, which the fallback case (never reached there) requires. -/
def chunkGo (bs : Nat) : Nat → List α → List (List α)
  | _, [] => []
  | Nat.succ fuel, l => l.take (bs + 1) :: chunkGo bs fuel (l.drop (bs + 1))
  | 0, l => [l]

/-- The batching loop `for i in range(0, len(posts), batch_size)`: split a
list into consecutive chunks of size `bs + 1` (the `+ 1` encodes that
`batch_size` is at least 1, as `range` with a positive step requires). -/
def chunkBatches (bs : Nat) (l : List α) : List (List α) :=
  chunkGo bs l.length l

/-- The per-post retry loop of the refusal branch (`classify_posts` lines
72–80): each post of the refused batch is retried as its own single-item
batch; an individually refused post is skipped with a log line, and any
other error propagates out of `classify_posts`. -/
def retryIndividually (o : ClassifyOracle) : List RedditPost →
    Except ApiError (List Classification)
  | [] => .ok []
  | p :: tl =>
      match classify_batch o [p] with
      | .ok cs =>
          match retryIndividually o tl with
          | .ok rest => .ok (cs ++ rest)
          | .error e => .error e
      | .error .refusal => retryIndividually o tl
      | .error .other => .error .other

/-- The refusal-degradation wrapper around one batch (`classify_posts` lines
61–82): on a refusal, the batch is split into single-item retries; any other
error propagates. -/
def handle_batch (o : ClassifyOracle) (batch : List RedditPost) :
    Except ApiError (List Classification) :=
  match classify_batch o batch with
  | .ok cs => .ok cs
  | .error .refusal => retryIndividually o batch
  | .error .other => .error .other

/-- The accumulation of classifications over the successive batches
(`all_classifications.extend(...)` per batch, in order). -/
def collectBatches (o : ClassifyOracle) : List (List RedditPost) →
    Except ApiError (List Classification)
  | [] => .ok []
  | b :: rest =>
      match handle_batch o b with
      | .ok cs =>
          match collectBatches o rest with
          | .ok more => .ok (cs ++ more)
          | .error e => .error e
      | .error e => .error e

/-- STEP 1 of `classify_posts`: the category pass over all batches, in
order. -/
def classify_posts_categories (o : ClassifyOracle) (bs : Nat)
    (posts : List RedditPost) : Except ApiError (List Classification) :=
  collectBatches o (chunkBatches bs posts)

/-- One tier result dict returned by `_classify_tiers_batch`. -/
structure TierData where
  post_id : String
  tier_tags : Option (List (String × List String)) := none
  clusters : List String := []
  scoring : Option Int := none
deriving DecidableEq, Repr

/-- Provider model for the tier pass: whether the project has a
`tagging.md` template, and the tier results of one tier batch call (which
can fail; failures are caught per batch). -/
structure TierOracle where
  hasTierSystem : Bool
  tiersFor : List RedditPost → Except Unit (List TierData)

/-- The tier-eligibility filter of `classify_posts` (lines 95–98): posts are
paired *positionally* with the classification list via `zip` and kept when
the paired classification is not `unrelated`. -/
def tierEligiblePosts (posts : List RedditPost)
    (all_classifications : List Classification) : List RedditPost :=
  (posts.zip all_classifications).filterMap (fun pc =>
    if pc.2.category ≠ CategoryEnum.unrelated then some pc.1 else none)

/-- The merge of tier results into the classification list (lines 110–118):
`tier_map` is a dict built from the results (a later duplicate overwrites an
earlier one, hence the reversed search) and every classification whose
`post_id` has tier data gets its three tier fields set. -/
def mergeTierData (tier_results : List TierData)
    (cls : List Classification) : List Classification :=
  cls.map (fun c =>
    match tier_results.reverse.find? (fun t => t.post_id = c.post_id) with
    | some t => { c with tier_tags := t.tier_tags
                         tier_clusters := t.clusters
                         tier_scoring := t.scoring }
    | none => c)

/-- STEP 2 of `classify_posts` (lines 84–128): when the project has a tier
system, the eligible posts are batched and tier-tagged; a failed tier batch
is logged and skipped.  Returns the updated classifications and the
concatenation of all tier batches submitted to the API. -/
def tierPass (to_ : TierOracle) (bs : Nat) (posts : List RedditPost)
    (all_classifications : List Classification) :
    List Classification × List RedditPost :=
  if to_.hasTierSystem then
    if (tierEligiblePosts posts all_classifications).isEmpty then
      (all_classifications, [])
    else
      ((chunkBatches bs (tierEligiblePosts posts all_classifications)).foldl
        (fun acc b =>
          match to_.tiersFor b with
          | .ok tier_results => (mergeTierData tier_results acc.1, acc.2 ++ b)
          | .error _ => (acc.1, acc.2 ++ b)) (all_classifications, []))
  else (all_classifications, [])

/-- Result of `classify_posts`: the classifications and the posts submitted
to the tier pass (observable through the `_classify_tiers_batch` calls). -/
structure ClassifyResult where
  classifications : List Classification
  tierSubmitted : List RedditPost
deriving DecidableEq, Repr

/-- Embeds `PostClassifier.classify_posts` (lines 43–130): the category pass
with refusal degradation, then the optional tier pass. -/
def classify_posts (o : ClassifyOracle) (to_ : TierOracle) (bs : Nat)
    (posts : List RedditPost) : Except ApiError ClassifyResult :=
  match classify_posts_categories o bs posts with
  | .error e => .error e
  | .ok all_classifications =>
      let tiered := tierPass to_ bs posts all_classifications
      .ok { classifications := tiered.1, tierSubmitted := tiered.2 }

/-! ## Cache-aware analysis engine (`analyzer.py` `CachedAnalysisEngine`) -/

/-- The estimated cost of one classification call (`~$0.001`, line 386),
written as the already-reduced rational `1/1000`. -/
def costPerClassification : Rat := ⟨1, 1000, by decide, by decide⟩

/-- The `cache_stats` dict `analyze_with_cache` returns; `api_cost_saved` is
`none` exactly when that key is absent from the dict. -/
structure CacheStats where
  total : Nat
  cached : Nat
  new : Nat
  cache_hit_rate : Rat
  api_cost_saved : Option Rat
deriving DecidableEq, Repr

/-- Result of one `analyze_with_cache` call: the combined classification
list, the stats dict, the number of `classifier.classify_posts` invocations
made, and the store state afterwards. -/
structure EngineOutput where
  classifications : List Classification
  stats : CacheStats
  classifier_calls : Nat
  db : DB
deriving Repr

/-- Failures of `analyze_with_cache`: a propagated classifier error, or a
cached row whose stored category string no longer parses as a
`CategoryEnum` (line 331 raises `ValueError`). -/
inductive EngineError
  | classifierError (e : ApiError)
  | invalidCachedCategory
deriving DecidableEq, Repr

/-- The conversion of cached rows into `Classification` objects
(`analyzer.py` lines 326–336): only `post_id`, `category`, `confidence`,
`red_flags` and `reasoning` are taken from the cached record; every other
field keeps its dataclass default. -/
def convertCached (rows : List (StoredClassification × StoredPost)) :
    Option (List Classification) :=
  rows.mapM (fun cp =>
    (CategoryEnum.ofString cp.1.category).map (fun cat =>
      ({ post_id := cp.1.post_id
         category := cat
         confidence := cp.1.confidence
         red_flags := cp.1.red_flags
         reasoning := cp.1.reasoning } : Classification)))

/-- The dicts `analyze_with_cache` builds for `save_classifications`
(lines 367–376): note they carry only five keys, so `topic_tags` and
`format_tag` are saved with their `.get` defaults. -/
def newClassificationDicts (new_classifications : List Classification) : List ClsDict :=
  new_classifications.map (fun c =>
    { post_id := c.post_id
      category := c.category.value
      confidence := c.confidence
      red_flags := c.red_flags
      reasoning := c.reasoning })

/-- Embeds `CachedAnalysisEngine.analyze_with_cache` (`analyzer.py` lines
256–397).  The `classifier` argument abstracts `classifier.classify_posts`;
`classifier_calls` counts its invocations. -/
def analyze_with_cache (cache_enabled : Bool) (db : DB)
    (classifier : List RedditPost → Except ApiError (List Classification))
    (posts : List RedditPost) (model_version : String)
    (source : String) (project : String) (now : Nat) :
    Except EngineError EngineOutput :=
  if posts.isEmpty then
    .ok { classifications := []
          stats := { total := 0, cached := 0, new := 0, cache_hit_rate := 0,
                     api_cost_saved := none }
          classifier_calls := 0
          db := db }
  else if ¬ cache_enabled then
    match classifier posts with
    | .error e => .error (.classifierError e)
    | .ok classifications =>
        .ok { classifications := classifications
              stats := { total := posts.length, cached := 0,
                         new := classifications.length, cache_hit_rate := 0,
                         api_cost_saved := some 0 }
              classifier_calls := 1
              db := db }
  else
    let post_ids := posts.map (fun p => p.id)
    let cached_data := get_cached_classifications db post_ids source project
    let cached_ids := cached_data.map (fun cp => cp.1.post_id)
    match convertCached cached_data with
    | none => .error .invalidCachedCategory
    | some cached_classifications =>
      let to_classify := posts.filter (fun p => p.id ∉ cached_ids)
      let classified : Except EngineError (List Classification × Nat × DB) :=
        if to_classify.isEmpty then .ok ([], 0, db)
        else
          match classifier to_classify with
          | .error e => .error (.classifierError e)
          | .ok new_classifications =>
              let db1 := save_posts db to_classify source project
              let db2 := save_classifications db1
                (newClassificationDicts new_classifications) source model_version
                project now
              .ok (new_classifications, 1, db2)
      match classified with
      | .error e => .error e
      | .ok (new_classifications, calls, db2) =>
          .ok { classifications := cached_classifications ++ new_classifications
                stats := { total := posts.length
                           cached := cached_classifications.length
                           new := new_classifications.length
                           cache_hit_rate :=
                             (cached_classifications.length : Rat) / (posts.length : Rat)
                           api_cost_saved :=
                             some ((cached_classifications.length : Rat) * costPerClassification) }
                classifier_calls := calls
                db := db2 }

/-! ## Response extraction (`classifier.py` and `digest.py` `_extract_json`)

Both extractors first look for a fenced markdown code block with a regex that
requires a literal backtick fence; when the response carries no fence (the
"embedded in prose" case) `re.search` finds nothing and the bracket-matching
fallback runs.  The definitions below embed those fallback scans
(`classifier.py` lines 312–332 and `digest.py` lines 373–404); all the
inputs considered here are fence-free, so the fallback is the whole
behavior. -/

/-- The opening curly brace character. -/
def lcurly : Char := Char.ofNat 123

/-- The closing curly brace character. -/
def rcurly : Char := Char.ofNat 125

/-- The bracket-counting loop of `classifier.PostClassifier._extract_json`
(lines 318–327), relative to the position of the first `[`: every `[` and
`]` character adjusts the count — quoted strings are NOT tracked — and the
scan ends right after the `]` that returns the count to zero.  Returns the
number of characters of the match, `none` when the loop runs out (no
matching `]`). -/
def naiveMatchEnd (bracket_count : Int) (pos : Nat) : List Char → Option Nat
  | [] => none
  | c :: rest =>
    if c = '[' then naiveMatchEnd (bracket_count + 1) (pos + 1) rest
    else if c = ']' then
      if bracket_count - 1 = 0 then some (pos + 1)
      else naiveMatchEnd (bracket_count - 1) (pos + 1) rest
    else naiveMatchEnd bracket_count (pos + 1) rest

/-- The fallback branch of `classifier.PostClassifier._extract_json`
(lines 312–332): find the first `[`, bracket-match to the closing `]`, and
return the slice (which line 335 then parses; an unparseable slice raises). -/
def extract_json_array (text : List Char) : Except Unit (List Char) :=
  match text.findIdx? (fun c => c = '[') with
  | none => .error ()
  | some start_idx =>
    match naiveMatchEnd 0 0 (text.drop start_idx) with
    | some n => .ok ((text.drop start_idx).take n)
    | none => .error ()

/-- The string-aware scan of `digest.DigestGenerator._extract_json`
(lines 379–401), relative to the position of the first brace: quoted strings
are tracked (a `"` toggles, a `\` inside a string escapes the next
character) and only braces outside a string adjust the count. -/
def awareMatchEnd (brace_count : Int) (in_string escape_next : Bool)
    (pos : Nat) : List Char → Option Nat
  | [] => none
  | c :: rest =>
    if escape_next then awareMatchEnd brace_count in_string false (pos + 1) rest
    else if c = '\\' ∧ in_string then
      awareMatchEnd brace_count in_string true (pos + 1) rest
    else if c = '"' then
      awareMatchEnd brace_count (!in_string) false (pos + 1) rest
    else if ¬ in_string then
      if c = lcurly then awareMatchEnd (brace_count + 1) in_string false (pos + 1) rest
      else if c = rcurly then
        if brace_count - 1 = 0 then some (pos + 1)
        else awareMatchEnd (brace_count - 1) in_string false (pos + 1) rest
      else awareMatchEnd brace_count in_string false (pos + 1) rest
    else awareMatchEnd brace_count in_string false (pos + 1) rest

/-- The fallback branch of `digest.DigestGenerator._extract_json`
(lines 373–404): find the first brace, run the string-aware scan, and return
the slice (which is then parsed; `None` on any failure). -/
def extract_json_object (text : List Char) : Option (List Char) :=
  match text.findIdx? (fun c => c = lcurly) with
  | none => none
  | some json_start =>
    match awareMatchEnd 0 false false 0 (text.drop json_start) with
    | some n => some ((text.drop json_start).take n)
    | none => none

/-! ### Structured payloads

A JSON value datatype with a compact serializer stands for "valid structured
payload": the round-trip property says the scan recovers exactly the
serialized payload from the surrounding prose (parsing the recovered slice
is the standard library's `json.loads`, outside this model). -/

mutual
/-- A structured (JSON) payload value. -/
inductive JsonVal
  | str (s : List Char)
  | num (n : Nat)
  | boolean (b : Bool)
  | null
  | arr (elements : JsonArr)
  | obj (fields : JsonObj)
/-- A list of payload values (the contents of an array). -/
inductive JsonArr
  | nil
  | cons (hd : JsonVal) (tl : JsonArr)
/-- A list of key–value fields (the contents of an object). -/
inductive JsonObj
  | nil
  | cons (key : List Char) (val : JsonVal) (tl : JsonObj)
end

/-- JSON string escaping of one character: quotes and backslashes are
escaped, everything else is written raw. -/
def escapeChar (c : Char) : List Char :=
  if c = '"' ∨ c = '\\' then ['\\', c] else [c]

/-- JSON string escaping of a character sequence. -/
def escapeString (s : List Char) : List Char := s.flatMap escapeChar

/-- The decimal digit character for `d` (`d ≤ 9`). -/
def digitChar (d : Nat) : Char :=
  match d with
  | 0 => '0' | 1 => '1' | 2 => '2' | 3 => '3' | 4 => '4'
  | 5 => '5' | 6 => '6' | 7 => '7' | 8 => '8' | _ => '9'

/-- Fuel-indexed decimal rendering of a natural number. -/
def natCharsGo : Nat → Nat → List Char
  | 0, _ => []
  | Nat.succ fuel, n =>
    if n < 10 then [digitChar n]
    else natCharsGo fuel (n / 10) ++ [digitChar (n % 10)]

/-- Decimal rendering of a natural number. -/
def natChars (n : Nat) : List Char := natCharsGo (n + 1) n

mutual
/-- Compact serialization of a payload value. -/
def serializeVal : JsonVal → List Char
  | .str s => '"' :: (escapeString s ++ ['"'])
  | .num n => natChars n
  | .boolean b => if b then ['t', 'r', 'u', 'e'] else ['f', 'a', 'l', 's', 'e']
  | .null => ['n', 'u', 'l', 'l']
  | .arr es => '[' :: (serializeArr es ++ [']'])
  | .obj fs => lcurly :: (serializeObj fs ++ [rcurly])
/-- Comma-separated serialization of array elements. -/
def serializeArr : JsonArr → List Char
  | .nil => []
  | .cons v .nil => serializeVal v
  | .cons v (.cons w tl) => serializeVal v ++ ',' :: serializeArr (.cons w tl)
/-- Comma-separated serialization of object fields. -/
def serializeObj : JsonObj → List Char
  | .nil => []
  | .cons k v .nil => '"' :: (escapeString k ++ ['"', ':']) ++ serializeVal v
  | .cons k v (.cons k2 v2 tl) =>
      ('"' :: (escapeString k ++ ['"', ':']) ++ serializeVal v) ++
        ',' :: serializeObj (.cons k2 v2 tl)
end

mutual
/-- A payload none of whose quoted strings (values or keys) contains a
square-bracket character. -/
def bracketFreeVal : JsonVal → Bool
  | .str s => s.all (fun c => c ≠ '[' ∧ c ≠ ']')
  | .num _ => true
  | .boolean _ => true
  | .null => true
  | .arr es => bracketFreeArr es
  | .obj fs => bracketFreeObj fs
/-- `bracketFreeVal` over array elements. -/
def bracketFreeArr : JsonArr → Bool
  | .nil => true
  | .cons v tl => bracketFreeVal v && bracketFreeArr tl
/-- `bracketFreeVal` over object fields. -/
def bracketFreeObj : JsonObj → Bool
  | .nil => true
  | .cons k v tl =>
      k.all (fun c => c ≠ '[' ∧ c ≠ ']') && (bracketFreeVal v && bracketFreeObj tl)
end

/-! ## Concrete inputs used by the witnesses and counterexamples -/

/-- A post template for concrete scenarios. -/
def mkPost (id : String) (score : Int) : RedditPost :=
  { id := id, title := "T", selftext := "s", author := "a", score := score,
    num_comments := 0, created_utc := 0, url := "u", subreddit := "r" }

/-- An empty store. -/
def emptyDb : DB := { posts := [], classifications := [] }

/-- A classifier stub that classifies every post as `technical`. -/
def simpleClassifier : List RedditPost → Except ApiError (List Classification) :=
  fun ps => .ok (ps.map (fun p =>
    { post_id := p.id, category := CategoryEnum.technical, confidence := 1 }))

/-- A classifier stub that fails if it is ever invoked. -/
def failClassifier : List RedditPost → Except ApiError (List Classification) :=
  fun _ => .error .other

/-- Scenario for the digest claims: one eligible signal classification. -/
def digestDbPost : StoredPost :=
  { id := "reddit_a", source := "reddit", project := "claudeia",
    subreddit := some "ClaudeAI", title := "T", author := some "au", score := 3,
    num_comments := 0, created_utc := 0, url := some "http://x", selftext := "body" }

/-- The matching unconsumed signal classification row. -/
def digestDbRow : StoredClassification :=
  { post_id := "reddit_a", source := "reddit", project := "claudeia",
    category := "technical", confidence := 1, red_flags := [], reasoning := "",
    model_version := "m", topic_tags := [], format_tag := none,
    classified_at := 0, sent_in_digest_at := none }

/-- The digest scenario store. -/
def digestDb : DB := { posts := [digestDbPost], classifications := [digestDbRow] }

/-- A fixed successful article. -/
def okArticle : Article :=
  { article_title := "AT", article_body := "AB", radio_commentary := "RC" }

/-- Digest environment in which everything succeeds. -/
def digestEnvOk : DigestEnv :=
  { processPost := fun _ => some okArticle
    writeMd := fun _ => .ok ()
    writeJson := fun _ => .ok () }

/-- Digest environment in which the markdown is produced but the JSON
generation fails (the second format fails partway). -/
def digestEnvJsonFails : DigestEnv :=
  { processPost := fun _ => some okArticle
    writeMd := fun _ => .ok ()
    writeJson := fun _ => .error () }

/-- Scenario for the cache claims: the incoming post. -/
def c2Post : RedditPost := mkPost "reddit_x" 1

/-- Its stored posts-table row. -/
def c2StoredPost : StoredPost :=
  { id := "reddit_x", source := "reddit", project := "default",
    subreddit := some "r", title := "T", author := some "a", score := 1,
    num_comments := 0, created_utc := 0, url := some "u", selftext := "s" }

/-- Its cached classification row, carrying non-default `topic_tags` and
`format_tag` (as `save_classifications` supports). -/
def c2Row : StoredClassification :=
  { post_id := "reddit_x", source := "reddit", project := "default",
    category := "technical", confidence := 1, red_flags := ["no_source"],
    reasoning := "why", model_version := "m", topic_tags := ["agents"],
    format_tag := some "guide", classified_at := 5, sent_in_digest_at := none }

/-- The cache scenario store. -/
def c2Db : DB := { posts := [c2StoredPost], classifications := [c2Row] }

/-- Refusal scenario posts: three posts, of which `p2` is refused. -/
def c3Posts : List RedditPost := [mkPost "p1" 0, mkPost "p2" 0, mkPost "p3" 0]

/-- Refusal scenario oracle: the provider refuses any batch containing `p2`
and classifies every other post as `technical`. -/
def c3Oracle : ClassifyOracle :=
  { refused := fun p => p.id = "p2"
    response := fun p => { post_id := p.id, category := "technical", confidence := 1 } }

/-- A project with no tier system. -/
def noTiers : TierOracle := { hasTierSystem := false, tiersFor := fun _ => .ok [] }

/-- Zip-misalignment scenario posts. -/
def c7Posts : List RedditPost := [mkPost "p1" 0, mkPost "p2" 0, mkPost "p3" 0]

/-- Zip-misalignment oracle: `p1`'s response item carries an unmappable
category label (so its item is dropped by the parse loop), `p2` is
`unrelated`, `p3` is `technical`. -/
def c7Oracle : ClassifyOracle :=
  { refused := fun _ => false
    response := fun p =>
      if p.id = "p1" then { post_id := "p1", category := "garbage", confidence := 1 }
      else if p.id = "p2" then { post_id := "p2", category := "unrelated", confidence := 1 }
      else { post_id := "p3", category := "technical", confidence := 1 } }

/-- A project with a tier system whose tier calls return no tier data. -/
def c7Tiers : TierOracle := { hasTierSystem := true, tiersFor := fun _ => .ok [] }

/-- A raw batch item whose label `discussion` is a correction-table key. -/
def c8Good : RawItem := { post_id := "a", category := "discussion", confidence := 1 }

/-- A raw batch item whose label is invalid and unmapped. -/
def c8Bad : RawItem := { post_id := "b", category := "garbage", confidence := 1 }

/-- Ten posts for the signal-ratio example. -/
def c9Posts : List RedditPost := List.replicate 10 (mkPost "p" 0)

/-- Ten classifications: 3 `unrelated`, then 4 signal (`technical`), then 3
`community`. -/
def c9Cls : List Classification :=
  List.replicate 3 { post_id := "p", category := CategoryEnum.unrelated, confidence := 1 } ++
  (List.replicate 4 { post_id := "p", category := CategoryEnum.technical, confidence := 1 } ++
   List.replicate 3 { post_id := "p", category := CategoryEnum.community, confidence := 1 })

/-- A consumed classification row (non-null `sent_in_digest_at`). -/
def c4Row : StoredClassification :=
  { post_id := "reddit_b", source := "reddit", project := "p",
    category := "technical", confidence := 1, red_flags := [], reasoning := "",
    model_version := "m", topic_tags := [], format_tag := none,
    classified_at := 1, sent_in_digest_at := some 7 }

/-- A store holding one consumed row. -/
def c4Db : DB := { posts := [], classifications := [c4Row] }

/-- An update dict hitting the same `(post_id, source, project)` key. -/
def c4Dict : ClsDict := { post_id := "reddit_b", category := "community", confidence := 1 }

/-- The bracket-in-string payload `["]"]`: a one-element array whose string
element is the single character `]`. -/
def c6BracketPayload : JsonVal := JsonVal.arr (JsonArr.cons (JsonVal.str [']']) JsonArr.nil)

/-- An object payload whose string value contains both curly braces. -/
def c6Obj : JsonObj :=
  JsonObj.cons ['k'] (JsonVal.str ['x', rcurly, 'y', lcurly]) JsonObj.nil

/-- A bracket-free array payload with a string and a number. -/
def c6Arr : JsonArr :=
  JsonArr.cons (JsonVal.str ['a', 'b']) (JsonArr.cons (JsonVal.num 17) JsonArr.nil)

/-- A character block is transparent to the naive bracket scan: scanning it
from any positive depth neither ends the match nor changes the depth. -/
def NaiveSeeThrough (cs : List Char) : Prop :=
  ∀ (count : Int) (pos : Nat) (rest : List Char), 1 ≤ count →
    naiveMatchEnd count pos (cs ++ rest) =
      naiveMatchEnd count (pos + cs.length) rest

/-- A character block is transparent to the string-aware brace scan:
scanning it from any positive depth (outside a string, not escaping)
neither ends the match nor changes the state. -/
def AwareSeeThrough (cs : List Char) : Prop :=
  ∀ (count : Int) (pos : Nat) (rest : List Char), 1 ≤ count →
    awareMatchEnd count false false pos (cs ++ rest) =
      awareMatchEnd count false false (pos + cs.length) rest

/-! ## Theorems -/

/-- Signal categories are never `unrelated`, so filtering `unrelated` away
does not change the signal count. -/
theorem filter_signal_of_filter_relevant (cls : List Classification) :
    ((cls.filter (fun c => c.category ≠ CategoryEnum.unrelated)).filter
        (fun c => CategoryEnum.is_signal c.category)) =
      cls.filter (fun c => CategoryEnum.is_signal c.category) := by
  rw [List.filter_filter]
  apply List.filter_congr
  intro c _
  cases hc : c.category <;> rfl

/-- C8: every key of `CATEGORY_CORRECTIONS` maps to a valid taxonomy member,
and a batch item whose raw label is neither valid nor a correction key is
dropped from the batch result while the rest of the batch is still
returned. -/
theorem C8_normalizer_total_and_drop_on_invalid :
    (∀ kv ∈ CATEGORY_CORRECTIONS, (CategoryEnum.ofString kv.2).isSome = true) ∧
    (∀ (pre post : List RawItem) (bad : RawItem),
      CategoryEnum.ofString bad.category = none →
      CATEGORY_CORRECTIONS.find? (fun kv => kv.1 = bad.category) = none →
      parseClassifications (pre ++ bad :: post) =
        parseClassifications pre ++ parseClassifications post) := by
  constructor
  · decide
  · intro pre post bad h1 h2
    have hbad : parseClassification bad = none := by
      unfold parseClassification correctCategory
      rw [h2, h1]
    simp [parseClassifications, List.filterMap_append, List.filterMap_cons, hbad]

/-- Witness for C8 at a concrete batch: `garbage` is invalid and unmapped,
the surrounding items survive. -/
theorem C8_normalizer_witness :
    CategoryEnum.ofString c8Bad.category = none ∧
    CATEGORY_CORRECTIONS.find? (fun kv => kv.1 = c8Bad.category) = none ∧
    parseClassifications ([c8Good] ++ c8Bad :: [c8Good]) =
      parseClassifications [c8Good] ++ parseClassifications [c8Good] :=
  ⟨by decide, by decide,
    C8_normalizer_total_and_drop_on_invalid.2 [c8Good] [c8Good] c8Bad
      (by decide) (by decide)⟩

/-- C9: `analyze` computes the signal ratio as the number of signal
classifications divided by the number of non-`unrelated` classifications —
`unrelated` ones are excluded from the denominator. -/
theorem C9_signal_ratio_excludes_unrelated (posts : List RedditPost)
    (cls : List Classification)
    (hlen : posts.length = cls.length)
    (hne : (cls.filter (fun c => c.category ≠ CategoryEnum.unrelated)).length ≠ 0) :
    ∃ r, analyze posts cls = some r ∧
      r.signal_ratio =
        ((cls.filter (fun c => CategoryEnum.is_signal c.category)).length : Rat) /
          ((cls.filter (fun c => c.category ≠ CategoryEnum.unrelated)).length : Rat) := by
  unfold analyze
  rw [if_neg (by omega)]
  refine ⟨_, rfl, ?_⟩
  simp only [if_neg hne, filter_signal_of_filter_relevant]

/-- Witness for C9 at the spec's example: 10 classifications, 3 `unrelated`,
4 signal among the remaining 7, ratio `4/7`. -/
theorem C9_signal_ratio_witness :
    c9Posts.length = c9Cls.length ∧
    (c9Cls.filter (fun c => c.category ≠ CategoryEnum.unrelated)).length ≠ 0 ∧
    (∃ r, analyze c9Posts c9Cls = some r ∧ r.signal_ratio = 4 / 7) := by
  refine ⟨by decide, by decide, ?_⟩
  obtain ⟨r, hr, hratio⟩ :=
    C9_signal_ratio_excludes_unrelated c9Posts c9Cls (by decide) (by decide)
  refine ⟨r, hr, ?_⟩
  rw [hratio]
  rw [show (c9Cls.filter (fun c => CategoryEnum.is_signal c.category)).length = 4 by decide]
  rw [show (c9Cls.filter (fun c => c.category ≠ CategoryEnum.unrelated)).length = 7 by decide]
  simp

/-- The upsert update function leaves `sent_in_digest_at` unchanged on every
row. -/
theorem upsert_sent_pointwise (source mv project : String) (now : Nat)
    (d : ClsDict) (r : StoredClassification) :
    (if keyMatches d.post_id source project r then
      { r with category := d.category
               confidence := d.confidence
               red_flags := d.red_flags
               reasoning := d.reasoning
               model_version := mv
               topic_tags := d.topic_tags
               format_tag := d.format_tag
               classified_at := now }
     else r).sent_in_digest_at = r.sent_in_digest_at := by
  by_cases h : keyMatches d.post_id source project r = true <;> simp [h]

/-- One upsert never shortens the table. -/
theorem upsert_length_le (source mv project : String) (now : Nat)
    (rows : List StoredClassification) (d : ClsDict) :
    rows.length ≤ (upsertClassification source mv project now rows d).length := by
  unfold upsertClassification
  by_cases h : rows.any (keyMatches d.post_id source project) = true <;> simp [h]

/-- One upsert preserves the `sent_in_digest_at` column of every existing
row (prefix of the table), whatever the dict. -/
theorem upsert_sent_take (source mv project : String) (now : Nat)
    (rows : List StoredClassification) (d : ClsDict) (n : Nat)
    (hn : n ≤ rows.length) :
    (((upsertClassification source mv project now rows d).take n).map
        (fun r => r.sent_in_digest_at)) =
      (rows.take n).map (fun r => r.sent_in_digest_at) := by
  unfold upsertClassification
  by_cases h : rows.any (keyMatches d.post_id source project) = true
  · simp only [h, if_true, List.map_take, List.map_map]
    congr 1
    apply List.map_congr_left
    intro r _
    exact upsert_sent_pointwise source mv project now d r
  · simp only [h, if_false, Bool.false_eq_true]
    rw [List.take_append_of_le_length hn]

/-- Folding upserts over a dict list preserves the `sent_in_digest_at`
column of every originally existing row. -/
theorem foldl_upsert_sent (source mv project : String) (now : Nat)
    (dicts : List ClsDict) :
    ∀ (rows : List StoredClassification) (n : Nat), n ≤ rows.length →
      (((dicts.foldl (upsertClassification source mv project now) rows).take n).map
          (fun r => r.sent_in_digest_at)) =
        (rows.take n).map (fun r => r.sent_in_digest_at) := by
  induction dicts with
  | nil => intro rows n _; rfl
  | cons d tl ih =>
      intro rows n hn
      have h1 : n ≤ (upsertClassification source mv project now rows d).length :=
        le_trans hn (upsert_length_le source mv project now rows d)
      calc (((tl.foldl (upsertClassification source mv project now)
                (upsertClassification source mv project now rows d)).take n).map
              (fun r => r.sent_in_digest_at))
          = (((upsertClassification source mv project now rows d).take n).map
              (fun r => r.sent_in_digest_at)) := ih _ n h1
        _ = (rows.take n).map (fun r => r.sent_in_digest_at) :=
            upsert_sent_take source mv project now rows d n hn

/-- Membership in an insertion-sorted list comes from the original list. -/
theorem mem_insertSorted {le : α → α → Bool} {x a : α} :
    ∀ {l : List α}, a ∈ insertSorted le x l → a = x ∨ a ∈ l := by
  intro l
  induction l with
  | nil => intro h; simp [insertSorted] at h; exact Or.inl h
  | cons y ys ih =>
      intro h
      unfold insertSorted at h
      by_cases hle : le x y = true
      · simp [hle] at h
        rcases h with h | h | h
        · exact Or.inl h
        · exact Or.inr (by simp [h])
        · exact Or.inr (by simp [h])
      · simp [hle] at h
        rcases h with h | h
        · exact Or.inr (by simp [h])
        · rcases ih h with h2 | h2
          · exact Or.inl h2
          · exact Or.inr (by simp [h2])

/-- Membership in a `sortBy` result comes from the original list. -/
theorem mem_sortBy {le : α → α → Bool} {a : α} :
    ∀ {l : List α}, a ∈ sortBy le l → a ∈ l := by
  intro l
  induction l with
  | nil => intro h; simp [sortBy] at h
  | cons x xs ih =>
      intro h
      unfold sortBy at h
      rcases mem_insertSorted h with h2 | h2
      · simp [h2]
      · exact List.mem_cons_of_mem x (ih h2)

/-- C4: the three store operations that touch `Classification` rows keep the
consumption marker monotonic — the `save_classifications` upsert leaves every
existing row's `sent_in_digest_at` exactly as it was, `mark_posts_as_sent_in_digest`
only ever assigns `some now()` (never null), and `get_signal_posts_for_digest`
never selects a row whose marker is non-null. -/
theorem C4_consumption_marker_monotonic :
    (∀ (db : DB) (rows : List ClsDict) (source mv project : String) (now : Nat),
      (((save_classifications db rows source mv project now).classifications.take
          db.classifications.length).map (fun r => r.sent_in_digest_at)) =
        db.classifications.map (fun r => r.sent_in_digest_at)) ∧
    (∀ (db : DB) (post_ids : List String) (project : String) (now : Nat),
      ((mark_posts_as_sent_in_digest db post_ids project now).classifications.map
          (fun r => r.sent_in_digest_at)) =
        db.classifications.map (fun r =>
          if r.post_id ∈ post_ids ∧ r.project = project then some now
          else r.sent_in_digest_at)) ∧
    (∀ (db : DB) (project : String) (limit : Nat) (minc : Rat)
       (item : DigestItem),
      item ∈ get_signal_posts_for_digest db project limit minc →
      item.classification.sent_in_digest_at = none) := by
  refine ⟨?_, ?_, ?_⟩
  · intro db rows source mv project now
    have := foldl_upsert_sent source mv project now rows db.classifications
      db.classifications.length (le_refl _)
    simpa [save_classifications, List.take_length] using this
  · intro db post_ids project now
    unfold mark_posts_as_sent_in_digest
    simp only [List.map_map]
    apply List.map_congr_left
    intro r _
    by_cases h : (r.post_id ∈ post_ids ∧ r.project = project) <;> simp [h]
  · intro db project limit minc item hmem
    unfold get_signal_posts_for_digest at hmem
    rcases List.mem_map.mp hmem with ⟨pc, hpc, hitem⟩
    have hsort : pc ∈ db.classifications.filterMap _ :=
      mem_sortBy (List.mem_of_mem_take hpc)
    rcases List.mem_filterMap.mp hsort with ⟨c, _, hc⟩
    by_cases hcond : (c.project = project ∧
        c.category ∈ ["technical", "troubleshooting", "research_verified"] ∧
        c.sent_in_digest_at = none ∧ minc ≤ c.confidence)
    · rw [if_pos hcond] at hc
      rcases Option.map_eq_some'.mp hc with ⟨p, _, hpc2⟩
      have : pc.2 = c := by rw [← hpc2]
      rw [← hitem]
      simp [this, hcond.2.2.1]
    · rw [if_neg hcond] at hc
      exact absurd hc (by simp)

/-- Witness for C4 at concrete inputs: an upsert on the key of a consumed
row keeps its timestamp, marking assigns `some now`, and the one item the
digest query returns on the digest scenario store is unconsumed. -/
theorem C4_consumption_marker_witness :
    ((((save_classifications c4Db [c4Dict] "reddit" "m2" "p" 99).classifications.take
        c4Db.classifications.length).map (fun r => r.sent_in_digest_at)) =
      c4Db.classifications.map (fun r => r.sent_in_digest_at)) ∧
    (((mark_posts_as_sent_in_digest c4Db ["reddit_b"] "p" 99).classifications.map
        (fun r => r.sent_in_digest_at)) =
      c4Db.classifications.map (fun r =>
        if r.post_id ∈ ["reddit_b"] ∧ r.project = "p" then some 99
        else r.sent_in_digest_at)) ∧
    ({ post := digestDbPost, classification := digestDbRow,
       selftext_truncated := false } :
        DigestItem).classification.sent_in_digest_at = none :=
  ⟨C4_consumption_marker_monotonic.1 c4Db [c4Dict] "reddit" "m2" "p" 99,
   C4_consumption_marker_monotonic.2.1 c4Db ["reddit_b"] "p" 99,
   C4_consumption_marker_monotonic.2.2 digestDb "claudeia" 15 defaultMinConfidence
     { post := digestDbPost, classification := digestDbRow, selftext_truncated := false }
     (by decide)⟩

/-- Case analysis of `generate_both`: either everything succeeded — the two
documents are built from one shared `articles` list and the store is updated
by exactly one mark call, sequenced after both writes — or an error
propagated before the mark step and the store is untouched, with a trace
that contains no mark effect. -/
theorem generate_both_cases (env : DigestEnv) (db : DB) (project : String)
    (limit now : Nat) :
    (∃ arts : List (DigestItem × Article),
      generate_both env db project limit now =
        { result := .ok
            ({ sections := arts.map (fun ia => { post := ia.1.post, article := ia.2 }) },
             { stories := arts.map (fun ia => build_story ia.1) }),
          trace := [.query, .writeMd, .writeJson,
                    .mark (arts.map (fun ia => ia.1.post.id))],
          db := mark_posts_as_sent_in_digest db
              (arts.map (fun ia => ia.1.post.id)) project now }) ∨
    (∃ e, (generate_both env db project limit now).result = .error e ∧
      ((generate_both env db project limit now).trace = [.query] ∨
       (generate_both env db project limit now).trace = [.query, .writeMd]) ∧
      (generate_both env db project limit now).db = db) := by
  simp only [generate_both]
  split
  · exact Or.inr ⟨_, rfl, Or.inl rfl, rfl⟩
  · split
    · exact Or.inr ⟨_, rfl, Or.inl rfl, rfl⟩
    · split
      · exact Or.inr ⟨_, rfl, Or.inl rfl, rfl⟩
      · split
        · exact Or.inr ⟨_, rfl, Or.inr rfl, rfl⟩
        · exact Or.inl ⟨_, rfl⟩

/-- C1: `generate_both` marks posts consumed exactly once, strictly after
both formats were produced; when any format generation fails, no mark call
happens, the store is unchanged, and the next invocation would reselect the
same candidate set (`sent_in_digest_at` stays null for every candidate). -/
theorem C1_generate_both_atomic_consumption :
    (∀ (env : DigestEnv) (db : DB) (project : String) (limit now : Nat)
       (md : MdDoc) (json : JsonDoc),
      (generate_both env db project limit now).result = .ok (md, json) →
      ∃ ids, (generate_both env db project limit now).trace =
          [.query, .writeMd, .writeJson, .mark ids] ∧
        (generate_both env db project limit now).db =
          mark_posts_as_sent_in_digest db ids project now) ∧
    (∀ (env : DigestEnv) (db : DB) (project : String) (limit now : Nat)
       (e : DigestError),
      (generate_both env db project limit now).result = .error e →
      (∀ ids, DigestEffect.mark ids ∉ (generate_both env db project limit now).trace) ∧
      (generate_both env db project limit now).db = db ∧
      get_signal_posts_for_digest ((generate_both env db project limit now).db)
          project limit defaultMinConfidence =
        get_signal_posts_for_digest db project limit defaultMinConfidence) := by
  constructor
  · intro env db project limit now md json h
    rcases generate_both_cases env db project limit now with ⟨arts, heq⟩ | ⟨e, he, _, _⟩
    · exact ⟨arts.map (fun ia => ia.1.post.id), by rw [heq], by rw [heq]⟩
    · rw [he] at h; exact absurd h (by simp)
  · intro env db project limit now e h
    rcases generate_both_cases env db project limit now with ⟨arts, heq⟩ | ⟨e2, _, htr, hdb⟩
    · rw [heq] at h; exact absurd h (by simp)
    · refine ⟨?_, hdb, by rw [hdb]⟩
      intro ids
      rcases htr with h2 | h2 <;> rw [h2] <;> simp

/-- Witness for C1: on the one-candidate store, the all-success environment
yields the mark-last trace, and the environment whose JSON write fails
yields no mark and an unchanged store. -/
theorem C1_generate_both_witness :
    (∃ md json, (generate_both digestEnvOk digestDb "claudeia" 15 42).result = .ok (md, json) ∧
      ∃ ids, (generate_both digestEnvOk digestDb "claudeia" 15 42).trace =
          [.query, .writeMd, .writeJson, .mark ids]) ∧
    ((generate_both digestEnvJsonFails digestDb "claudeia" 15 42).result =
        .error DigestError.jsonFailed ∧
      (∀ ids, DigestEffect.mark ids ∉
        (generate_both digestEnvJsonFails digestDb "claudeia" 15 42).trace) ∧
      (generate_both digestEnvJsonFails digestDb "claudeia" 15 42).db = digestDb) := by
  constructor
  · refine ⟨_, _, rfl, ?_⟩
    obtain ⟨ids, htr, _⟩ :=
      C1_generate_both_atomic_consumption.1 digestEnvOk digestDb "claudeia" 15 42 _ _ rfl
    exact ⟨ids, htr⟩
  · refine ⟨rfl, ?_, ?_⟩
    · exact (C1_generate_both_atomic_consumption.2 digestEnvJsonFails digestDb
        "claudeia" 15 42 DigestError.jsonFailed rfl).1
    · exact (C1_generate_both_atomic_consumption.2 digestEnvJsonFails digestDb
        "claudeia" 15 42 DigestError.jsonFailed rfl).2.1

/-- C5: every `generate_both` run queries the candidate set exactly once,
and on success the markdown sections and the JSON stories name the same
post ids in the same order. -/
theorem C5_dual_format_same_stories :
    (∀ (env : DigestEnv) (db : DB) (project : String) (limit now : Nat),
      ((generate_both env db project limit now).trace.count DigestEffect.query) = 1) ∧
    (∀ (env : DigestEnv) (db : DB) (project : String) (limit now : Nat)
       (md : MdDoc) (json : JsonDoc),
      (generate_both env db project limit now).result = .ok (md, json) →
      md.sections.map (fun s => s.post.id) = json.stories.map (fun s => s.post_id)) := by
  constructor
  · intro env db project limit now
    rcases generate_both_cases env db project limit now with ⟨arts, heq⟩ | ⟨e, _, htr, _⟩
    · rw [heq]; rfl
    · rcases htr with h2 | h2 <;> rw [h2] <;> rfl
  · intro env db project limit now md json h
    rcases generate_both_cases env db project limit now with ⟨arts, heq⟩ | ⟨e, he, _, _⟩
    · rw [heq] at h
      simp only [Except.ok.injEq, Prod.mk.injEq] at h
      rcases h with ⟨hmd, hjson⟩
      rw [← hmd, ← hjson]
      simp [build_story]
    · rw [he] at h; exact absurd h (by simp)

/-- Witness for C5: on the one-candidate store with the all-success
environment, the trace queries once and the two formats carry the same
single post id. -/
theorem C5_dual_format_witness :
    ((generate_both digestEnvOk digestDb "claudeia" 15 42).trace.count
        DigestEffect.query = 1) ∧
    (∃ md json, (generate_both digestEnvOk digestDb "claudeia" 15 42).result = .ok (md, json) ∧
      md.sections.map (fun s => s.post.id) = json.stories.map (fun s => s.post_id)) := by
  constructor
  · exact C5_dual_format_same_stories.1 digestEnvOk digestDb "claudeia" 15 42
  · exact ⟨_, _, rfl,
      C5_dual_format_same_stories.2 digestEnvOk digestDb "claudeia" 15 42 _ _ rfl⟩

/-- C10: `analyze_with_cache` on an empty post list returns `([], stats)`
with all-zero stats and no `api_cost_saved` key, making no classifier call
and leaving the store untouched, while every non-empty successful return
carries an `api_cost_saved` value. -/
theorem C10_empty_input_edge :
    (∀ (cache_enabled : Bool) (db : DB)
       (classifier : List RedditPost → Except ApiError (List Classification))
       (mv source project : String) (now : Nat),
      analyze_with_cache cache_enabled db classifier [] mv source project now =
        .ok { classifications := []
              stats := { total := 0, cached := 0, new := 0, cache_hit_rate := 0,
                         api_cost_saved := none }
              classifier_calls := 0
              db := db }) ∧
    (∀ (cache_enabled : Bool) (db : DB)
       (classifier : List RedditPost → Except ApiError (List Classification))
       (posts : List RedditPost) (mv source project : String) (now : Nat)
       (out : EngineOutput),
      posts ≠ [] →
      analyze_with_cache cache_enabled db classifier posts mv source project now =
        .ok out →
      out.stats.api_cost_saved ≠ none) := by
  constructor
  · intro cache_enabled db classifier mv source project now
    rfl
  · intro cache_enabled db classifier posts mv source project now out hne h
    simp only [analyze_with_cache] at h
    rw [if_neg (by simpa using hne)] at h
    split at h
    · split at h
      · exact absurd h (by simp)
      · simp only [Except.ok.injEq] at h
        subst h
        simp
    · split at h
      · exact absurd h (by simp)
      · split at h
        · exact absurd h (by simp)
        · simp only [Except.ok.injEq] at h
          subst h
          simp

/-- Witness for C10: a concrete one-post call (cache disabled path) carries
the `api_cost_saved` key that the empty-input return omits. -/
theorem C10_empty_input_witness :
    ([mkPost "reddit_x" 1] ≠ ([] : List RedditPost)) ∧
    (∃ out, analyze_with_cache false emptyDb simpleClassifier [mkPost "reddit_x" 1]
        "m" "reddit" "default" 0 = .ok out ∧
      out.stats.api_cost_saved ≠ none) := by
  refine ⟨by decide, ⟨_, rfl, ?_⟩⟩
  exact C10_empty_input_edge.2 false emptyDb simpleClassifier [mkPost "reddit_x" 1]
    "m" "reddit" "default" 0 _ (by decide) rfl

/-- The classification components of the rows `get_cached_classifications`
returns are exactly the table rows passing its selection, in order. -/
theorem cached_proj (posts_tbl : List StoredPost) (rows : List StoredClassification)
    (ids : List String) (source project : String) :
    ((rows.filterMap (fun c =>
        if c.post_id ∈ ids ∧ c.source = source ∧ c.project = project then
          (posts_tbl.find? (fun p => p.id = c.post_id)).map (fun p => (c, p))
        else none)).map (fun cp => cp.1)) =
      rows.filter (fun c =>
        decide (c.post_id ∈ ids ∧ c.source = source ∧ c.project = project) &&
          (posts_tbl.find? (fun p => p.id = c.post_id)).isSome) := by
  induction rows with
  | nil => rfl
  | cons c tl ih =>
      by_cases hcond : (c.post_id ∈ ids ∧ c.source = source ∧ c.project = project)
      · cases hfind : posts_tbl.find? (fun p => p.id = c.post_id) with
        | none => simp [List.filterMap_cons, List.filter_cons, hcond, hfind, ih]
        | some p => simp [List.filterMap_cons, List.filter_cons, hcond, hfind, ih]
      · simp [List.filterMap_cons, List.filter_cons, hcond, ih]

/-- `convertCached` succeeds on rows with valid stored categories; the
produced records copy exactly the five transferred columns and default the
rest. -/
theorem convertCached_sound (rows : List (StoredClassification × StoredPost))
    (hvalid : ∀ cp ∈ rows, (CategoryEnum.ofString cp.1.category).isSome = true) :
    ∃ cls, convertCached rows = some cls ∧ cls.length = rows.length ∧
      ∀ c ∈ cls, ∃ cp ∈ rows,
        CategoryEnum.ofString cp.1.category = some c.category ∧
        c.post_id = cp.1.post_id ∧ c.confidence = cp.1.confidence ∧
        c.red_flags = cp.1.red_flags ∧ c.reasoning = cp.1.reasoning ∧
        c.topic_tags = [] ∧ c.format_tag = none ∧ c.tier_tags = none ∧
        c.tier_clusters = [] ∧ c.tier_scoring = none := by
  induction rows with
  | nil => exact ⟨[], rfl, rfl, by intro c hc; simp at hc⟩
  | cons cp tl ih =>
      obtain ⟨cat, hcat⟩ := Option.isSome_iff_exists.mp (hvalid cp (by simp))
      obtain ⟨cls, hcls, hlen, hmem⟩ := ih (fun x hx => hvalid x (by simp [hx]))
      refine ⟨({ post_id := cp.1.post_id, category := cat,
                 confidence := cp.1.confidence, red_flags := cp.1.red_flags,
                 reasoning := cp.1.reasoning } : Classification) :: cls,
              ?_, by simp [hlen], ?_⟩
      · simp only [convertCached] at hcls ⊢
        rw [List.mapM_cons, hcat, hcls]
        rfl
      · intro c hc
        rcases List.mem_cons.mp hc with h | h
        · subst h
          exact ⟨cp, by simp, hcat, rfl, rfl, rfl, rfl, rfl, rfl, rfl, rfl, rfl⟩
        · obtain ⟨cp2, hcp2, hrest⟩ := hmem c h
          exact ⟨cp2, by simp [hcp2], hrest⟩

/-- When every incoming post has a cached row (and a posts-table row) under
the requested source and project, the cache lookup returns exactly one entry
per post. -/
theorem cached_count (db : DB) (posts : List RedditPost) (source project : String)
    (hids : (posts.map (fun p => p.id)).Nodup)
    (hkeys : (db.classifications.map (fun r => (r.post_id, r.source, r.project))).Nodup)
    (hcls : ∀ p ∈ posts, ∃ row ∈ db.classifications,
        row.post_id = p.id ∧ row.source = source ∧ row.project = project)
    (hposts : ∀ p ∈ posts, ∃ sp ∈ db.posts, sp.id = p.id) :
    (get_cached_classifications db (posts.map (fun p => p.id)) source project).length
        = posts.length ∧
    (∀ p ∈ posts, p.id ∈ (get_cached_classifications db (posts.map (fun p => p.id))
        source project).map (fun cp => cp.1.post_id)) := by
  have hproj : ((get_cached_classifications db (posts.map (fun p => p.id))
      source project).map (fun cp => cp.1)) =
      db.classifications.filter (fun c =>
        decide (c.post_id ∈ posts.map (fun p => p.id) ∧ c.source = source ∧
          c.project = project) &&
        (db.posts.find? (fun p => p.id = c.post_id)).isSome) := by
    unfold get_cached_classifications
    exact cached_proj db.posts db.classifications (posts.map (fun p => p.id))
      source project
  have hmem2 : ∀ p ∈ posts, p.id ∈ (get_cached_classifications db
      (posts.map (fun p => p.id)) source project).map (fun cp => cp.1.post_id) := by
    intro p hp
    obtain ⟨row, hrow, h1, h2, h3⟩ := hcls p hp
    obtain ⟨sp, hsp, hspid⟩ := hposts p hp
    have hfind : (db.posts.find? (fun x => x.id = row.post_id)).isSome := by
      rw [List.find?_isSome]
      exact ⟨sp, hsp, by simp [hspid, h1]⟩
    obtain ⟨p2, hp2⟩ := Option.isSome_iff_exists.mp hfind
    have hmem : (row, p2) ∈ get_cached_classifications db
        (posts.map (fun p => p.id)) source project := by
      unfold get_cached_classifications
      apply List.mem_filterMap.mpr
      refine ⟨row, hrow, ?_⟩
      rw [if_pos ⟨by rw [h1]; exact List.mem_map.mpr ⟨p, hp, rfl⟩, h2, h3⟩, hp2]
      rfl
    exact List.mem_map.mpr ⟨(row, p2), hmem, by simp [h1]⟩
  refine ⟨?_, hmem2⟩
  have hrows_nodup : db.classifications.Nodup := List.Nodup.of_map _ hkeys
  have hfl_cond : ∀ r, r ∈ db.classifications.filter (fun c =>
      decide (c.post_id ∈ posts.map (fun p => p.id) ∧ c.source = source ∧
        c.project = project) &&
      (db.posts.find? (fun p => p.id = c.post_id)).isSome) →
      r ∈ db.classifications ∧ r.post_id ∈ posts.map (fun p => p.id) ∧
      r.source = source ∧ r.project = project := by
    intro r hr
    have := List.mem_filter.mp hr
    rcases this with ⟨hmem, hq⟩
    simp only [Bool.and_eq_true, decide_eq_true_eq] at hq
    exact ⟨hmem, hq.1⟩
  have hinj := List.inj_on_of_nodup_map hkeys
  have hnodup_pid : ((db.classifications.filter (fun c =>
      decide (c.post_id ∈ posts.map (fun p => p.id) ∧ c.source = source ∧
        c.project = project) &&
      (db.posts.find? (fun p => p.id = c.post_id)).isSome)).map
        (fun r => r.post_id)).Nodup := by
    apply List.Nodup.map_on
    · intro x hx y hy hxy
      obtain ⟨hx1, _, hx3, hx4⟩ := hfl_cond x hx
      obtain ⟨hy1, _, hy3, hy4⟩ := hfl_cond y hy
      exact hinj hx1 hy1 (by rw [hxy, hx3, hx4, hy3, hy4])
    · exact hrows_nodup.filter _
  have hiff : ∀ a, (a ∈ (db.classifications.filter (fun c =>
      decide (c.post_id ∈ posts.map (fun p => p.id) ∧ c.source = source ∧
        c.project = project) &&
      (db.posts.find? (fun p => p.id = c.post_id)).isSome)).map
        (fun r => r.post_id)) ↔ a ∈ posts.map (fun p => p.id) := by
    intro a
    constructor
    · intro ha
      obtain ⟨r, hr, rfl⟩ := List.mem_map.mp ha
      exact (hfl_cond r hr).2.1
    · intro ha
      obtain ⟨p, hp, rfl⟩ := List.mem_map.mp ha
      have h0 := hmem2 p hp
      rw [show ((get_cached_classifications db (posts.map (fun p => p.id))
            source project).map (fun cp => cp.1.post_id)) =
          (((get_cached_classifications db (posts.map (fun p => p.id))
            source project).map (fun cp => cp.1)).map (fun r => r.post_id)) by
          rw [List.map_map]; rfl] at h0
      rw [hproj] at h0
      exact h0
  have hperm := (List.perm_ext_iff_of_nodup hnodup_pid hids).mpr hiff
  have hlen1 : (get_cached_classifications db (posts.map (fun p => p.id))
      source project).length =
    ((get_cached_classifications db (posts.map (fun p => p.id))
      source project).map (fun cp => cp.1)).length := by rw [List.length_map]
  rw [hlen1, hproj]
  have := hperm.length_eq
  simpa using this

/-- Every entry the cache lookup returns is a table row matching the
requested source and project. -/
theorem cached_data_mem (db : DB) (ids : List String) (source project : String)
    (cp : StoredClassification × StoredPost)
    (hcp : cp ∈ get_cached_classifications db ids source project) :
    cp.1 ∈ db.classifications ∧ cp.1.source = source ∧ cp.1.project = project := by
  unfold get_cached_classifications at hcp
  obtain ⟨c, hc, hf⟩ := List.mem_filterMap.mp hcp
  by_cases hcond : (c.post_id ∈ ids ∧ c.source = source ∧ c.project = project)
  · rw [if_pos hcond] at hf
    obtain ⟨p2, _, hp2⟩ := Option.map_eq_some'.mp hf
    have he : cp.1 = c := by rw [← hp2]
    rw [he]
    exact ⟨hc, hcond.2.1, hcond.2.2⟩
  · rw [if_neg hcond] at hf
    exact absurd hf (by simp)

/-- C2 (amended): when every post of a non-empty batch already has a cached
classification under the requested `(source, project)`, a second
`analyze_with_cache` makes zero classifier calls, reports
`cache_hit_rate = 1`, leaves the store untouched, and returns per post a
record that reproduces the cached row's `post_id`, `category`, `confidence`,
`red_flags` and `reasoning` — while `topic_tags`, `format_tag` and the tier
fields take the dataclass defaults instead of the stored values. -/
theorem C2_cache_idempotence_amended
    (db : DB) (classifier : List RedditPost → Except ApiError (List Classification))
    (posts : List RedditPost) (mv source project : String) (now : Nat)
    (hne : posts ≠ [])
    (hids : (posts.map (fun p => p.id)).Nodup)
    (hkeys : (db.classifications.map (fun r => (r.post_id, r.source, r.project))).Nodup)
    (hcls : ∀ p ∈ posts, ∃ row ∈ db.classifications,
        row.post_id = p.id ∧ row.source = source ∧ row.project = project)
    (hposts : ∀ p ∈ posts, ∃ sp ∈ db.posts, sp.id = p.id)
    (hvalid : ∀ row ∈ db.classifications,
        (CategoryEnum.ofString row.category).isSome = true) :
    ∃ out, analyze_with_cache true db classifier posts mv source project now = .ok out ∧
      out.classifier_calls = 0 ∧ out.stats.cache_hit_rate = 1 ∧
      out.stats.cached = posts.length ∧ out.stats.new = 0 ∧ out.db = db ∧
      (∀ c ∈ out.classifications, ∃ row ∈ db.classifications,
        row.source = source ∧ row.project = project ∧
        c.post_id = row.post_id ∧
        CategoryEnum.ofString row.category = some c.category ∧
        c.confidence = row.confidence ∧ c.red_flags = row.red_flags ∧
        c.reasoning = row.reasoning ∧
        c.topic_tags = [] ∧ c.format_tag = none ∧ c.tier_tags = none ∧
        c.tier_clusters = [] ∧ c.tier_scoring = none) := by
  obtain ⟨hcount, hmem2⟩ := cached_count db posts source project hids hkeys hcls hposts
  have hvalid2 : ∀ cp ∈ get_cached_classifications db (posts.map (fun p => p.id))
      source project, (CategoryEnum.ofString cp.1.category).isSome = true := by
    intro cp hcp
    exact hvalid cp.1 (cached_data_mem db _ source project cp hcp).1
  obtain ⟨cls, hconv, hclslen, hclsmem⟩ := convertCached_sound _ hvalid2
  have hIsEmpty : posts.isEmpty = false := by
    cases posts with
    | nil => exact absurd rfl hne
    | cons a l => rfl
  have hto : posts.filter (fun p => p.id ∉ (get_cached_classifications db
      (posts.map (fun p => p.id)) source project).map (fun cp => cp.1.post_id)) = [] := by
    rw [List.filter_eq_nil_iff]
    intro p hp
    simp only [decide_not, Bool.not_eq_true', decide_eq_false_iff_not, not_not]
    exact hmem2 p hp
  have hlen2 : cls.length = posts.length := by rw [hclslen, hcount]
  have hlenne : (posts.length : Rat) ≠ 0 := by
    have : posts.length ≠ 0 := by simpa using hne
    exact_mod_cast this
  have hmain : analyze_with_cache true db classifier posts mv source project now =
      .ok { classifications := cls
            stats := { total := posts.length
                       cached := cls.length
                       new := 0
                       cache_hit_rate := (cls.length : Rat) / (posts.length : Rat)
                       api_cost_saved :=
                         some ((cls.length : Rat) * costPerClassification) }
            classifier_calls := 0
            db := db } := by
    simp only [analyze_with_cache, hIsEmpty, hconv, hto]
    simp
  refine ⟨_, hmain, rfl, ?_, by simpa using hlen2, rfl, rfl, ?_⟩
  · show (cls.length : Rat) / (posts.length : Rat) = 1
    rw [hlen2]
    exact div_self hlenne
  · intro c hc
    obtain ⟨cp, hcp, hrest⟩ := hclsmem c hc
    obtain ⟨hrow, hsrc, hproj2⟩ := cached_data_mem db _ source project cp hcp
    exact ⟨cp.1, hrow, hsrc, hproj2, hrest.2.1, hrest.1, hrest.2.2.1, hrest.2.2.2.1,
      hrest.2.2.2.2.1, hrest.2.2.2.2.2.1, hrest.2.2.2.2.2.2.1,
      hrest.2.2.2.2.2.2.2.1, hrest.2.2.2.2.2.2.2.2⟩

/-- Counterexample to C2 as stated: on a store whose cached row carries
`topic_tags = ["agents"]` and `format_tag = "guide"`, the second call makes
zero classifier calls but the returned record does NOT reproduce all fields
of the stored classification — `topic_tags` and `format_tag` come back as
the dataclass defaults. -/
theorem C2_cache_exact_reuse_counterexample :
    ((analyze_with_cache true c2Db failClassifier [c2Post] "m" "reddit" "default" 9).map
        (fun out => (out.classifier_calls,
          out.classifications.map (fun c => (c.topic_tags, c.format_tag))))) =
      .ok (0, [([], none)]) ∧
    c2Db.classifications.map (fun r => (r.topic_tags, r.format_tag)) =
      [(["agents"], some "guide")] ∧
    ([(([] : List String), (none : Option String))] ≠
      [(["agents"], some "guide")]) :=
  ⟨rfl, rfl, by decide⟩

/-- Witness for the amended C2 at the concrete one-post cached store. -/
theorem C2_cache_idempotence_witness :
    ([c2Post] ≠ ([] : List RedditPost)) ∧
    (([c2Post].map (fun p => p.id)).Nodup) ∧
    (∃ out, analyze_with_cache true c2Db failClassifier [c2Post] "m" "reddit"
        "default" 9 = .ok out ∧
      out.classifier_calls = 0 ∧ out.stats.cache_hit_rate = 1 ∧ out.db = c2Db) := by
  refine ⟨by decide, by decide, ?_⟩
  obtain ⟨out, h1, h2, h3, _, _, h6, _⟩ :=
    C2_cache_idempotence_amended c2Db failClassifier [c2Post] "m" "reddit"
      "default" 9 (by decide) (by decide) (by decide) (by decide) (by decide)
      (by decide)
  exact ⟨out, h1, h2, h3, h6⟩

/-- `chunkGo` ignores the exact fuel as long as it dominates the list
length. -/
theorem chunkGo_fuel_irrel (bs : Nat) :
    ∀ (f1 f2 : Nat) (l : List α), l.length ≤ f1 → l.length ≤ f2 →
      chunkGo bs f1 l = chunkGo bs f2 l := by
  intro f1
  induction f1 with
  | zero =>
      intro f2 l h1 _
      have : l = [] := List.eq_nil_of_length_eq_zero (Nat.le_zero.mp h1)
      subst this
      cases f2 <;> rfl
  | succ f ih =>
      intro f2 l h1 h2
      cases l with
      | nil => cases f2 <;> rfl
      | cons x xs =>
          cases f2 with
          | zero => simp at h2
          | succ f2 =>
              show ((x :: xs).take (bs + 1) :: chunkGo bs f ((x :: xs).drop (bs + 1))) =
                ((x :: xs).take (bs + 1) :: chunkGo bs f2 ((x :: xs).drop (bs + 1)))
              congr 1
              apply ih
              · simp only [List.length_drop, List.length_cons] at *; omega
              · simp only [List.length_drop, List.length_cons] at *; omega

/-- Unfolding equation for `chunkBatches` on a non-empty list. -/
theorem chunkBatches_cons (bs : Nat) (x : α) (xs : List α) :
    chunkBatches bs (x :: xs) =
      (x :: xs).take (bs + 1) :: chunkBatches bs ((x :: xs).drop (bs + 1)) := by
  show ((x :: xs).take (bs + 1) :: chunkGo bs xs.length ((x :: xs).drop (bs + 1))) = _
  congr 1
  apply chunkGo_fuel_irrel
  · simp only [List.length_drop, List.length_cons]; omega
  · exact le_refl _

/-- Splitting a raw-item list splits its parsed classifications. -/
theorem parseClassifications_append (l1 l2 : List RawItem) :
    parseClassifications (l1 ++ l2) =
      parseClassifications l1 ++ parseClassifications l2 := by
  simp [parseClassifications, List.filterMap_append]

/-- The per-post retry loop always succeeds under the batch oracle and
returns exactly the parses of the non-refused posts' responses, in order. -/
theorem retryIndividually_ok (o : ClassifyOracle) (l : List RedditPost) :
    retryIndividually o l =
      .ok (parseClassifications
        ((l.filter (fun p => !(o.refused p))).map (fun p => o.response p))) := by
  induction l with
  | nil => rfl
  | cons p tl ih =>
      by_cases hp : o.refused p = true
      · simp only [retryIndividually, classify_batch, List.any_cons, List.any_nil,
          hp, Bool.or_false, if_true, List.filter_cons, Bool.not_true,
          Bool.false_eq_true, if_false]
        exact ih
      · simp only [Bool.not_eq_true] at hp
        simp only [retryIndividually, classify_batch, List.any_cons, List.any_nil,
          hp, Bool.or_false, Bool.false_eq_true, if_false, ih, List.filter_cons,
          Bool.not_false, if_true]
        rw [show ((p :: tl.filter (fun p => !(o.refused p))).map
            (fun p => o.response p)) =
          ([p].map (fun p => o.response p) ++
            (tl.filter (fun p => !(o.refused p))).map (fun p => o.response p))
          from by simp]
        rw [parseClassifications_append]

/-- The refusal-degradation wrapper always succeeds under the batch oracle
and returns exactly the parses of the non-refused posts' responses, in
order. -/
theorem handle_batch_ok (o : ClassifyOracle) (batch : List RedditPost) :
    handle_batch o batch =
      .ok (parseClassifications
        ((batch.filter (fun p => !(o.refused p))).map (fun p => o.response p))) := by
  unfold handle_batch classify_batch
  by_cases h : batch.any o.refused = true
  · simp only [h, if_true]
    exact retryIndividually_ok o batch
  · simp only [h, Bool.false_eq_true, if_false]
    have hall : batch.filter (fun p => !(o.refused p)) = batch := by
      rw [List.filter_eq_self]
      intro p hp
      have h2 := List.any_eq_true.not.mp (by simpa using h)
      push_neg at h2
      simp [h2 p hp]
    rw [hall]

/-- The chunks of a list concatenate back to the list. -/
theorem chunkBatches_join (bs : Nat) :
    ∀ (l : List α), (chunkBatches bs l).flatten = l := by
  suffices h : ∀ (n : Nat) (l : List α), l.length ≤ n →
      (chunkBatches bs l).flatten = l by
    intro l
    exact h l.length l (le_refl _)
  intro n
  induction n with
  | zero =>
      intro l hl
      have : l = [] := List.eq_nil_of_length_eq_zero (Nat.le_zero.mp hl)
      subst this
      rfl
  | succ n ih =>
      intro l hl
      cases l with
      | nil => rfl
      | cons x xs =>
          rw [chunkBatches_cons, List.flatten_cons]
          rw [ih ((x :: xs).drop (bs + 1))
            (by simp only [List.length_drop, List.length_cons] at *; omega)]
          exact List.take_append_drop (bs + 1) (x :: xs)

/-- Collecting over chunks parses exactly the non-refused posts of the
concatenation, in order. -/
theorem collectBatches_ok (o : ClassifyOracle) :
    ∀ (chunks : List (List RedditPost)),
      collectBatches o chunks =
        .ok (parseClassifications
          ((chunks.flatten.filter (fun p => !(o.refused p))).map
            (fun p => o.response p))) := by
  intro chunks
  induction chunks with
  | nil => rfl
  | cons b rest ih =>
      simp only [collectBatches, handle_batch_ok, ih, List.flatten_cons,
        List.filter_append, List.map_append, parseClassifications_append]

/-- The category pass succeeds under the batch oracle and returns exactly
the parses of the non-refused posts' responses, in input order. -/
theorem classify_posts_categories_ok (o : ClassifyOracle) (bs : Nat)
    (posts : List RedditPost) :
    classify_posts_categories o bs posts =
      .ok (parseClassifications
        ((posts.filter (fun p => !(o.refused p))).map (fun p => o.response p))) := by
  unfold classify_posts_categories
  rw [collectBatches_ok, chunkBatches_join]

/-- When every item of a batch parses, the parse loop is a plain map and
preserves ids and length. -/
theorem parse_all_some (items : List RawItem)
    (h : ∀ it ∈ items,
      (CategoryEnum.ofString (correctCategory it.category)).isSome = true) :
    (parseClassifications items).length = items.length ∧
    (parseClassifications items).map (fun c => c.post_id) =
      items.map (fun it => it.post_id) := by
  induction items with
  | nil => exact ⟨rfl, rfl⟩
  | cons it tl ih =>
      obtain ⟨cat, hcat⟩ := Option.isSome_iff_exists.mp (h it (by simp))
      obtain ⟨ih1, ih2⟩ := ih (fun x hx => h x (by simp [hx]))
      constructor
      · simp only [parseClassifications, List.filterMap_cons, parseClassification,
          hcat]
        simpa [parseClassifications] using ih1
      · simp only [parseClassifications, List.filterMap_cons, parseClassification,
          hcat]
        simpa [parseClassifications] using ih2

/-- The two filter halves of a list partition its length. -/
theorem filter_partition_length (l : List α) (p : α → Bool) :
    (l.filter p).length + (l.filter (fun a => !(p a))).length = l.length := by
  induction l with
  | nil => rfl
  | cons x xs ih =>
      by_cases hx : p x = true <;>
        simp [List.filter_cons, hx, ih] <;> omega

/-- Tier merging touches only the three tier fields: ids survive. -/
theorem mergeTierData_post_id (ts : List TierData) (cls : List Classification) :
    (mergeTierData ts cls).map (fun c => c.post_id) =
      cls.map (fun c => c.post_id) := by
  unfold mergeTierData
  rw [List.map_map]
  apply List.map_congr_left
  intro c _
  cases h : ts.reverse.find? (fun t => t.post_id = c.post_id) <;> simp [h]

/-- The tier pass never changes which classifications are returned (by id,
in order). -/
theorem tierPass_post_id (to_ : TierOracle) (bs : Nat) (posts : List RedditPost)
    (cls : List Classification) :
    ((tierPass to_ bs posts cls).1).map (fun c => c.post_id) =
      cls.map (fun c => c.post_id) := by
  unfold tierPass
  split
  · split
    · rfl
    · have main : ∀ (chunks : List (List RedditPost))
          (acc : List Classification × List RedditPost),
          ((chunks.foldl (fun acc b =>
            match to_.tiersFor b with
            | .ok tier_results => (mergeTierData tier_results acc.1, acc.2 ++ b)
            | .error _ => (acc.1, acc.2 ++ b)) acc).1).map (fun c => c.post_id) =
          (acc.1).map (fun c => c.post_id) := by
        intro chunks
        induction chunks with
        | nil => intro acc; rfl
        | cons b rest ih =>
            intro acc
            rw [List.foldl_cons]
            cases h : to_.tiersFor b <;>
              simp only [h, ih, mergeTierData_post_id]
      exact main _ _
  · rfl

/-- C3: a batch of N posts among which exactly one triggers a provider
refusal (all others parse when retried individually) yields exactly N−1
classification records — the non-refused posts, in order — with the refused
post permanently skipped and never escalated. -/
theorem C3_refusal_degradation (o : ClassifyOracle) (to_ : TierOracle) (bs : Nat)
    (posts : List RedditPost)
    (hone : (posts.filter (fun p => o.refused p)).length = 1)
    (hid : ∀ p ∈ posts, (o.response p).post_id = p.id)
    (hparse : ∀ p ∈ posts, o.refused p = false →
        (CategoryEnum.ofString (correctCategory (o.response p).category)).isSome = true) :
    ∃ r, classify_posts o to_ bs posts = .ok r ∧
      r.classifications.length = posts.length - 1 ∧
      r.classifications.map (fun c => c.post_id) =
        (posts.filter (fun p => !(o.refused p))).map (fun p => p.id) := by
  have hparse2 : ∀ it ∈ (posts.filter (fun p => !(o.refused p))).map
      (fun p => o.response p),
      (CategoryEnum.ofString (correctCategory it.category)).isSome = true := by
    intro it hit
    obtain ⟨p, hp, rfl⟩ := List.mem_map.mp hit
    have hmem := List.mem_filter.mp hp
    exact hparse p hmem.1 (by simpa using hmem.2)
  obtain ⟨hplen, hpid⟩ := parse_all_some _ hparse2
  have hfl : (posts.filter (fun p => !(o.refused p))).length = posts.length - 1 := by
    have hpart := filter_partition_length posts (fun p => o.refused p)
    omega
  unfold classify_posts
  rw [classify_posts_categories_ok o bs posts]
  have hids2 : ((tierPass to_ bs posts (parseClassifications
      ((posts.filter (fun p => !(o.refused p))).map (fun p => o.response p)))).1).map
        (fun c => c.post_id) =
      (posts.filter (fun p => !(o.refused p))).map (fun p => p.id) := by
    rw [tierPass_post_id, hpid, List.map_map]
    apply List.map_congr_left
    intro p hp
    exact hid p (List.mem_filter.mp hp).1
  refine ⟨_, rfl, ?_, hids2⟩
  have hlen3 : ((tierPass to_ bs posts (parseClassifications
      ((posts.filter (fun p => !(o.refused p))).map (fun p => o.response p)))).1).length =
      ((posts.filter (fun p => !(o.refused p))).map (fun p => p.id)).length := by
    rw [← hids2, List.length_map]
  rw [hlen3, List.length_map]
  exact hfl

/-- Witness for C3 at three posts of which the second is refused: two
records are returned, for the two non-refused posts in order. -/
theorem C3_refusal_degradation_witness :
    ((c3Posts.filter (fun p => c3Oracle.refused p)).length = 1) ∧
    (∃ r, classify_posts c3Oracle noTiers 9 c3Posts = .ok r ∧
      r.classifications.length = c3Posts.length - 1 ∧
      r.classifications.map (fun c => c.post_id) = ["p1", "p3"]) := by
  refine ⟨by decide, ?_⟩
  obtain ⟨r, h1, h2, h3⟩ := C3_refusal_degradation c3Oracle noTiers 9 c3Posts
    (by decide) (by decide) (by decide)
  refine ⟨r, h1, h2, ?_⟩
  rw [h3]
  decide

/-- C7 (failing input): when the primary pass drops one post's item, the
`zip`-based tier-eligibility pairing shifts — here `p1`'s item is dropped,
`p2`'s own classification is `unrelated` and `p3`'s is `technical`, yet the
tier pass is given exactly `p2` (whose classification is `unrelated`) and
never `p3` (whose classification is signal). -/
theorem C7_tier_zip_misalignment :
    ∃ r, classify_posts c7Oracle c7Tiers 9 c7Posts = .ok r ∧
      r.tierSubmitted.map (fun p => p.id) = ["p2"] ∧
      (∀ c ∈ r.classifications, c.post_id = "p2" →
        c.category = CategoryEnum.unrelated) ∧
      (∃ c ∈ r.classifications, c.post_id = "p3" ∧
        c.category = CategoryEnum.technical) ∧
      (∀ p ∈ r.tierSubmitted, p.id ≠ "p3") := by
  refine ⟨_, rfl, ?_, ?_, ?_, ?_⟩ <;> decide

/-- Unfolding equation of the naive scan on one character. -/
theorem naiveMatchEnd_cons (count : Int) (pos : Nat) (c : Char) (rest : List Char) :
    naiveMatchEnd count pos (c :: rest) =
      if c = '[' then naiveMatchEnd (count + 1) (pos + 1) rest
      else if c = ']' then
        (if count - 1 = 0 then some (pos + 1)
         else naiveMatchEnd (count - 1) (pos + 1) rest)
      else naiveMatchEnd count (pos + 1) rest := rfl

/-- Transparency composes over concatenation (naive scan). -/
theorem naiveSeeThrough_append {a b : List Char}
    (ha : NaiveSeeThrough a) (hb : NaiveSeeThrough b) :
    NaiveSeeThrough (a ++ b) := by
  intro count pos rest hc
  rw [List.append_assoc, ha count pos (b ++ rest) hc,
    hb count (pos + a.length) rest hc, List.length_append]
  congr 1
  omega

/-- Bracket-free blocks are transparent to the naive scan. -/
theorem naiveSeeThrough_plain {cs : List Char}
    (h : ∀ c ∈ cs, c ≠ '[' ∧ c ≠ ']') : NaiveSeeThrough cs := by
  induction cs with
  | nil => intro count pos rest _; simp
  | cons c tl ih =>
      intro count pos rest hc
      obtain ⟨h1, h2⟩ := h c (by simp)
      show naiveMatchEnd count pos (c :: (tl ++ rest)) = _
      rw [naiveMatchEnd_cons, if_neg h1, if_neg h2]
      rw [ih (fun x hx => h x (by simp [hx])) count (pos + 1) rest hc]
      congr 1
      simp only [List.length_cons]
      omega

/-- A balanced bracket pair around a transparent block is transparent to the
naive scan. -/
theorem naiveSeeThrough_brackets {inner : List Char}
    (hinner : NaiveSeeThrough inner) :
    NaiveSeeThrough ('[' :: (inner ++ [']'])) := by
  intro count pos rest hc
  show naiveMatchEnd count pos ('[' :: ((inner ++ [']']) ++ rest)) = _
  rw [naiveMatchEnd_cons, if_pos rfl]
  rw [List.append_assoc]
  rw [show ([']'] ++ rest) = ']' :: rest from rfl]
  rw [hinner (count + 1) (pos + 1) (']' :: rest) (by omega)]
  rw [naiveMatchEnd_cons, if_neg (by decide), if_pos rfl, if_neg (by omega)]
  rw [show count + 1 - 1 = count by omega]
  congr 1
  simp only [List.length_cons, List.length_append, List.length_nil]
  omega

/-- Unfolding equation of the string-aware scan on one character. -/
theorem awareMatchEnd_cons (count : Int) (in_string escape_next : Bool)
    (pos : Nat) (c : Char) (rest : List Char) :
    awareMatchEnd count in_string escape_next pos (c :: rest) =
      (if escape_next then awareMatchEnd count in_string false (pos + 1) rest
       else if c = '\\' ∧ in_string then
         awareMatchEnd count in_string true (pos + 1) rest
       else if c = '"' then
         awareMatchEnd count (!in_string) false (pos + 1) rest
       else if ¬ in_string then
         (if c = lcurly then awareMatchEnd (count + 1) in_string false (pos + 1) rest
          else if c = rcurly then
            (if count - 1 = 0 then some (pos + 1)
             else awareMatchEnd (count - 1) in_string false (pos + 1) rest)
          else awareMatchEnd count in_string false (pos + 1) rest)
       else awareMatchEnd count in_string false (pos + 1) rest) := rfl

/-- Transparency composes over concatenation (aware scan). -/
theorem awareSeeThrough_append {a b : List Char}
    (ha : AwareSeeThrough a) (hb : AwareSeeThrough b) :
    AwareSeeThrough (a ++ b) := by
  intro count pos rest hc
  rw [List.append_assoc, ha count pos (b ++ rest) hc,
    hb count (pos + a.length) rest hc, List.length_append]
  congr 1
  omega

/-- Blocks without quotes or braces are transparent to the aware scan. -/
theorem awareSeeThrough_plain {cs : List Char}
    (h : ∀ c ∈ cs, c ≠ '"' ∧ c ≠ lcurly ∧ c ≠ rcurly) : AwareSeeThrough cs := by
  induction cs with
  | nil => intro count pos rest _; simp
  | cons c tl ih =>
      intro count pos rest hc
      obtain ⟨h1, h2, h3⟩ := h c (by simp)
      show awareMatchEnd count false false pos (c :: (tl ++ rest)) = _
      rw [awareMatchEnd_cons, if_neg (by simp), if_neg (by simp),
        if_neg h1, if_pos (by simp), if_neg h2, if_neg h3]
      rw [ih (fun x hx => h x (by simp [hx])) count (pos + 1) rest hc]
      congr 1
      simp only [List.length_cons]
      omega

/-- Inside a string, escaped content is consumed without touching the brace
count or ending the match. -/
theorem aware_in_string (s : List Char) :
    ∀ (count : Int) (pos : Nat) (rest : List Char),
      awareMatchEnd count true false pos (escapeString s ++ rest) =
        awareMatchEnd count true false (pos + (escapeString s).length) rest := by
  induction s with
  | nil => intro count pos rest; simp [escapeString]
  | cons c tl ih =>
      intro count pos rest
      rw [show escapeString (c :: tl) = escapeChar c ++ escapeString tl from by
        simp [escapeString]]
      by_cases hesc : (c = '"' ∨ c = '\\')
      · rw [show escapeChar c = ['\\', c] from by simp [escapeChar, hesc]]
        show awareMatchEnd count true false pos
          ('\\' :: (c :: (escapeString tl ++ rest))) = _
        rw [awareMatchEnd_cons, if_neg (by simp), if_pos (by simp)]
        rw [awareMatchEnd_cons, if_pos rfl]
        rw [ih count (pos + 1 + 1) rest]
        congr 1
        simp only [List.length_append, List.length_cons, List.length_nil]
        omega
      · rw [show escapeChar c = [c] from by
          simp only [escapeChar]
          rw [if_neg hesc]]
        push_neg at hesc
        show awareMatchEnd count true false pos (c :: (escapeString tl ++ rest)) = _
        rw [awareMatchEnd_cons, if_neg (by simp), if_neg (by simp [hesc.2]),
          if_neg hesc.1, if_neg (by simp)]
        rw [ih count (pos + 1) rest]
        congr 1
        simp only [List.length_append, List.length_cons, List.length_nil]
        omega

/-- A serialized string literal is transparent to the aware scan, whatever
characters (braces included) it contains. -/
theorem awareSeeThrough_string (s : List Char) :
    AwareSeeThrough ('"' :: (escapeString s ++ ['"'])) := by
  intro count pos rest hc
  show awareMatchEnd count false false pos
    ('"' :: ((escapeString s ++ ['"']) ++ rest)) = _
  rw [awareMatchEnd_cons, if_neg (by simp), if_neg (by simp), if_pos rfl]
  rw [List.append_assoc, show (['"'] ++ rest) = '"' :: rest from rfl]
  rw [show (!false) = true from rfl]
  rw [aware_in_string s count (pos + 1) ('"' :: rest)]
  rw [awareMatchEnd_cons, if_neg (by simp), if_neg (by simp), if_pos rfl]
  rw [show (!true) = false from rfl]
  congr 1
  simp only [List.length_cons, List.length_append, List.length_nil]
  omega

/-- A balanced brace pair around a transparent block is transparent to the
aware scan. -/
theorem awareSeeThrough_braces {inner : List Char}
    (hinner : AwareSeeThrough inner) :
    AwareSeeThrough (lcurly :: (inner ++ [rcurly])) := by
  intro count pos rest hc
  show awareMatchEnd count false false pos (lcurly :: ((inner ++ [rcurly]) ++ rest)) = _
  rw [awareMatchEnd_cons, if_neg (by simp), if_neg (by simp),
    if_neg (by decide), if_pos (by simp), if_pos rfl]
  rw [List.append_assoc, show ([rcurly] ++ rest) = rcurly :: rest from rfl]
  rw [hinner (count + 1) (pos + 1) (rcurly :: rest) (by omega)]
  rw [awareMatchEnd_cons, if_neg (by simp), if_neg (by simp),
    if_neg (by decide), if_pos (by simp), if_neg (by decide), if_pos rfl,
    if_neg (by omega)]
  rw [show count + 1 - 1 = count by omega]
  congr 1
  simp only [List.length_cons, List.length_append, List.length_nil]
  omega

/-- Digit characters are neither brackets, quotes, backslashes nor braces. -/
theorem digitChar_safe (d : Nat) :
    digitChar d ≠ '[' ∧ digitChar d ≠ ']' ∧ digitChar d ≠ '"' ∧
    digitChar d ≠ lcurly ∧ digitChar d ≠ rcurly := by
  unfold digitChar
  split <;> exact (by decide)

/-- Every character of a rendered number is a digit character. -/
theorem natCharsGo_digit :
    ∀ (fuel n : Nat) (c : Char), c ∈ natCharsGo fuel n → ∃ d, c = digitChar d := by
  intro fuel
  induction fuel with
  | zero => intro n c h; simp [natCharsGo] at h
  | succ f ih =>
      intro n c h
      unfold natCharsGo at h
      by_cases hn : n < 10
      · rw [if_pos hn] at h
        simp at h
        exact ⟨n, h⟩
      · rw [if_neg hn] at h
        rcases List.mem_append.mp h with h2 | h2
        · exact ih _ _ h2
        · simp at h2
          exact ⟨n % 10, h2⟩

/-- Rendered numbers contain only scan-inert characters. -/
theorem natChars_safe (n : Nat) : ∀ c ∈ natChars n,
    (c ≠ '[' ∧ c ≠ ']') ∧ (c ≠ '"' ∧ c ≠ lcurly ∧ c ≠ rcurly) := by
  intro c hc
  obtain ⟨d, rfl⟩ := natCharsGo_digit _ _ c hc
  obtain ⟨a1, a2, a3, a4, a5⟩ := digitChar_safe d
  exact ⟨⟨a1, a2⟩, ⟨a3, a4, a5⟩⟩

/-- A character of an escaped string is a backslash or one of the original
characters. -/
theorem mem_escapeString {c : Char} {s : List Char} (h : c ∈ escapeString s) :
    c = '\\' ∨ c ∈ s := by
  unfold escapeString at h
  rcases List.mem_flatMap.mp h with ⟨a, ha, hc⟩
  unfold escapeChar at hc
  by_cases he : (a = '"' ∨ a = '\\')
  · rw [if_pos he] at hc
    simp at hc
    rcases hc with rfl | rfl
    · exact Or.inl rfl
    · exact Or.inr ha
  · rw [if_neg he] at hc
    simp at hc
    subst hc
    exact Or.inr ha

mutual
/-- Any serialized payload value is transparent to the string-aware scan. -/
theorem serializeVal_aware : ∀ (v : JsonVal), AwareSeeThrough (serializeVal v)
  | .str s => by
      rw [show serializeVal (.str s) = '"' :: (escapeString s ++ ['"']) from rfl]
      exact awareSeeThrough_string s
  | .num n => by
      rw [show serializeVal (.num n) = natChars n from rfl]
      exact awareSeeThrough_plain (fun c hc => (natChars_safe n c hc).2)
  | .boolean b => by
      cases b
      · exact awareSeeThrough_plain (by decide)
      · exact awareSeeThrough_plain (by decide)
  | .null => awareSeeThrough_plain (by decide)
  | .arr es => by
      rw [show serializeVal (.arr es) = ['['] ++ (serializeArr es ++ [']']) from rfl]
      exact awareSeeThrough_append (awareSeeThrough_plain (by decide))
        (awareSeeThrough_append (serializeArr_aware es)
          (awareSeeThrough_plain (by decide)))
  | .obj fs => by
      rw [show serializeVal (.obj fs) = lcurly :: (serializeObj fs ++ [rcurly])
        from rfl]
      exact awareSeeThrough_braces (serializeObj_aware fs)
/-- Serialized array contents are transparent to the string-aware scan. -/
theorem serializeArr_aware : ∀ (es : JsonArr), AwareSeeThrough (serializeArr es)
  | .nil => by intro count pos rest _; simp [serializeArr]
  | .cons v .nil => by
      rw [show serializeArr (.cons v .nil) = serializeVal v from rfl]
      exact serializeVal_aware v
  | .cons v (.cons w tl) => by
      rw [show serializeArr (.cons v (.cons w tl)) =
        serializeVal v ++ ([','] ++ serializeArr (.cons w tl)) from rfl]
      exact awareSeeThrough_append (serializeVal_aware v)
        (awareSeeThrough_append (awareSeeThrough_plain (by decide))
          (serializeArr_aware (.cons w tl)))
/-- Serialized object contents are transparent to the string-aware scan. -/
theorem serializeObj_aware : ∀ (fs : JsonObj), AwareSeeThrough (serializeObj fs)
  | .nil => by intro count pos rest _; simp [serializeObj]
  | .cons k v .nil => by
      rw [show serializeObj (.cons k v .nil) =
        ('"' :: (escapeString k ++ ['"'])) ++ ([':'] ++ serializeVal v) from by
          simp [serializeObj]]
      exact awareSeeThrough_append (awareSeeThrough_string k)
        (awareSeeThrough_append (awareSeeThrough_plain (by decide))
          (serializeVal_aware v))
  | .cons k v (.cons k2 v2 tl) => by
      rw [show serializeObj (.cons k v (.cons k2 v2 tl)) =
        (('"' :: (escapeString k ++ ['"'])) ++ ([':'] ++ serializeVal v)) ++
          ([','] ++ serializeObj (.cons k2 v2 tl)) from by simp [serializeObj]]
      exact awareSeeThrough_append
        (awareSeeThrough_append (awareSeeThrough_string k)
          (awareSeeThrough_append (awareSeeThrough_plain (by decide))
            (serializeVal_aware v)))
        (awareSeeThrough_append (awareSeeThrough_plain (by decide))
          (serializeObj_aware (.cons k2 v2 tl)))
end

/-- A serialized string literal whose content has no brackets is transparent
to the naive bracket scan. -/
theorem naiveSeeThrough_string {s : List Char}
    (h : ∀ c ∈ s, c ≠ '[' ∧ c ≠ ']') :
    NaiveSeeThrough ('"' :: (escapeString s ++ ['"'])) := by
  apply naiveSeeThrough_plain
  intro c hc
  rcases List.mem_cons.mp hc with rfl | hc2
  · exact (by decide)
  · rcases List.mem_append.mp hc2 with hc3 | hc3
    · rcases mem_escapeString hc3 with rfl | hc4
      · exact (by decide)
      · exact h c hc4
    · simp at hc3
      subst hc3
      exact (by decide)

mutual
/-- A serialized payload whose strings contain no bracket characters is
transparent to the naive bracket scan. -/
theorem serializeVal_naive : ∀ (v : JsonVal), bracketFreeVal v = true →
    NaiveSeeThrough (serializeVal v)
  | .str s, h => by
      rw [show serializeVal (.str s) = '"' :: (escapeString s ++ ['"']) from rfl]
      apply naiveSeeThrough_string
      intro c hc
      have h2 : ∀ x ∈ s, ¬x = '[' ∧ ¬x = ']' := by
        simpa [bracketFreeVal] using h
      exact h2 c hc
  | .num n, _ => by
      rw [show serializeVal (.num n) = natChars n from rfl]
      exact naiveSeeThrough_plain (fun c hc => (natChars_safe n c hc).1)
  | .boolean b, _ => by
      cases b
      · exact naiveSeeThrough_plain (by decide)
      · exact naiveSeeThrough_plain (by decide)
  | .null, _ => naiveSeeThrough_plain (by decide)
  | .arr es, h => by
      rw [show serializeVal (.arr es) = '[' :: (serializeArr es ++ [']']) from rfl]
      exact naiveSeeThrough_brackets
        (serializeArr_naive es (by simpa [bracketFreeVal] using h))
  | .obj fs, h => by
      rw [show serializeVal (.obj fs) = [lcurly] ++ (serializeObj fs ++ [rcurly])
        from rfl]
      exact naiveSeeThrough_append (naiveSeeThrough_plain (by decide))
        (naiveSeeThrough_append
          (serializeObj_naive fs (by simpa [bracketFreeVal] using h))
          (naiveSeeThrough_plain (by decide)))
/-- `serializeVal_naive` over array contents. -/
theorem serializeArr_naive : ∀ (es : JsonArr), bracketFreeArr es = true →
    NaiveSeeThrough (serializeArr es)
  | .nil, _ => by intro count pos rest _; simp [serializeArr]
  | .cons v .nil, h => by
      rw [show serializeArr (.cons v .nil) = serializeVal v from rfl]
      exact serializeVal_naive v (by
        simp only [bracketFreeArr, Bool.and_eq_true] at h
        exact h.1)
  | .cons v (.cons w tl), h => by
      rw [show serializeArr (.cons v (.cons w tl)) =
        serializeVal v ++ ([','] ++ serializeArr (.cons w tl)) from rfl]
      have h2 : bracketFreeVal v = true ∧ bracketFreeArr (JsonArr.cons w tl) = true := by
        have h3 := h
        rw [show bracketFreeArr (JsonArr.cons v (JsonArr.cons w tl)) =
          (bracketFreeVal v && bracketFreeArr (JsonArr.cons w tl)) from rfl,
          Bool.and_eq_true] at h3
        exact h3
      exact naiveSeeThrough_append (serializeVal_naive v h2.1)
        (naiveSeeThrough_append (naiveSeeThrough_plain (by decide))
          (serializeArr_naive (.cons w tl) h2.2))
/-- `serializeVal_naive` over object contents. -/
theorem serializeObj_naive : ∀ (fs : JsonObj), bracketFreeObj fs = true →
    NaiveSeeThrough (serializeObj fs)
  | .nil, _ => by intro count pos rest _; simp [serializeObj]
  | .cons k v .nil, h => by
      have h2 : (k.all (fun c => c ≠ '[' ∧ c ≠ ']')) = true ∧
          bracketFreeVal v = true := by
        have h3 := h
        rw [show bracketFreeObj (JsonObj.cons k v JsonObj.nil) =
          ((k.all (fun c => c ≠ '[' ∧ c ≠ ']')) &&
            (bracketFreeVal v && bracketFreeObj JsonObj.nil)) from rfl,
          Bool.and_eq_true, Bool.and_eq_true] at h3
        exact ⟨h3.1, h3.2.1⟩
      rw [show serializeObj (.cons k v .nil) =
        ('"' :: (escapeString k ++ ['"'])) ++ ([':'] ++ serializeVal v) from by
          simp [serializeObj]]
      refine naiveSeeThrough_append (naiveSeeThrough_string ?_)
        (naiveSeeThrough_append (naiveSeeThrough_plain (by decide))
          (serializeVal_naive v h2.2))
      intro c hc
      have h3 := List.all_eq_true.mp h2.1 c hc
      simpa using h3
  | .cons k v (.cons k2 v2 tl), h => by
      have h2 : (k.all (fun c => c ≠ '[' ∧ c ≠ ']')) = true ∧
          bracketFreeVal v = true ∧
          bracketFreeObj (JsonObj.cons k2 v2 tl) = true := by
        have h3 := h
        rw [show bracketFreeObj (JsonObj.cons k v (JsonObj.cons k2 v2 tl)) =
          ((k.all (fun c => c ≠ '[' ∧ c ≠ ']')) &&
            (bracketFreeVal v && bracketFreeObj (JsonObj.cons k2 v2 tl))) from rfl,
          Bool.and_eq_true, Bool.and_eq_true] at h3
        exact ⟨h3.1, h3.2.1, h3.2.2⟩
      rw [show serializeObj (.cons k v (.cons k2 v2 tl)) =
        (('"' :: (escapeString k ++ ['"'])) ++ ([':'] ++ serializeVal v)) ++
          ([','] ++ serializeObj (.cons k2 v2 tl)) from by simp [serializeObj]]
      refine naiveSeeThrough_append
        (naiveSeeThrough_append (naiveSeeThrough_string ?_)
          (naiveSeeThrough_append (naiveSeeThrough_plain (by decide))
            (serializeVal_naive v h2.2.1)))
        (naiveSeeThrough_append (naiveSeeThrough_plain (by decide))
          (serializeObj_naive (.cons k2 v2 tl) h2.2.2))
      intro c hc
      have h3 := List.all_eq_true.mp h2.1 c hc
      simpa using h3
end

/-- `findIdx?` finds the first position where the predicate holds. -/
theorem findIdx_first {α : Type} (p : α → Bool) (l2 : List α) (x : α)
    (hx : p x = true) :
    ∀ (l1 : List α) (i : Nat), (∀ c ∈ l1, p c = false) →
      List.findIdx? p (l1 ++ x :: l2) i = some (i + l1.length) := by
  intro l1
  induction l1 with
  | nil =>
      intro i _
      simp [List.findIdx?, hx]
  | cons a tl ih =>
      intro i hall
      rw [List.cons_append]
      rw [show List.findIdx? p (a :: (tl ++ x :: l2)) i =
        if p a then some i else List.findIdx? p (tl ++ x :: l2) (i + 1) from by
          simp [List.findIdx?]]
      rw [if_neg (by simp [hall a (by simp)])]
      rw [ih (i + 1) (fun c hc => hall c (by simp [hc]))]
      congr 1
      simp only [List.length_cons]
      omega

/-- The string-aware fallback of the digest extractor recovers exactly a
serialized object payload embedded in prose (no brace before it, anything
after it), including payloads whose strings contain brace characters. -/
theorem extract_object_roundtrip (fs : JsonObj) (prose1 prose2 : List Char)
    (hpre : lcurly ∉ prose1) :
    extract_json_object (prose1 ++ (serializeVal (JsonVal.obj fs) ++ prose2)) =
      some (serializeVal (JsonVal.obj fs)) := by
  have hfind : (prose1 ++ (serializeVal (JsonVal.obj fs) ++ prose2)).findIdx?
      (fun c => c = lcurly) = some prose1.length := by
    rw [show serializeVal (JsonVal.obj fs) ++ prose2 =
      lcurly :: ((serializeObj fs ++ [rcurly]) ++ prose2) from rfl]
    rw [findIdx_first (fun c => c = lcurly) _ lcurly (by simp) prose1 0
      (fun c hc => by simp; exact fun h => hpre (h ▸ hc))]
    simp
  have hscan : awareMatchEnd 0 false false 0
      (serializeVal (JsonVal.obj fs) ++ prose2) =
      some (serializeVal (JsonVal.obj fs)).length := by
    rw [show serializeVal (JsonVal.obj fs) ++ prose2 =
      lcurly :: (serializeObj fs ++ (rcurly :: prose2)) from by
        rw [show serializeVal (JsonVal.obj fs) =
          lcurly :: (serializeObj fs ++ [rcurly]) from rfl]
        simp]
    rw [awareMatchEnd_cons, if_neg (by simp), if_neg (by simp),
      if_neg (by decide), if_pos (by simp), if_pos rfl]
    rw [serializeObj_aware fs (0 + 1) (0 + 1) (rcurly :: prose2) (by omega)]
    rw [awareMatchEnd_cons, if_neg (by simp), if_neg (by simp),
      if_neg (by decide), if_pos (by simp), if_neg (by decide), if_pos rfl,
      if_pos (by decide)]
    rw [show serializeVal (JsonVal.obj fs) =
      lcurly :: (serializeObj fs ++ [rcurly]) from rfl]
    simp only [List.length_cons, List.length_append, List.length_nil]
    congr 1
    omega
  simp only [extract_json_object, hfind]
  rw [List.drop_left]
  rw [hscan]
  simp only [List.take_left]

/-- The naive fallback of the classifier extractor recovers exactly a
serialized array payload embedded in prose (no bracket before it, anything
after it), provided the payload's strings contain no bracket characters. -/
theorem extract_array_roundtrip (es : JsonArr) (prose1 prose2 : List Char)
    (hpre : '[' ∉ prose1) (hfree : bracketFreeArr es = true) :
    extract_json_array (prose1 ++ (serializeVal (JsonVal.arr es) ++ prose2)) =
      .ok (serializeVal (JsonVal.arr es)) := by
  have hfind : (prose1 ++ (serializeVal (JsonVal.arr es) ++ prose2)).findIdx?
      (fun c => c = '[') = some prose1.length := by
    rw [show serializeVal (JsonVal.arr es) ++ prose2 =
      '[' :: ((serializeArr es ++ [']']) ++ prose2) from rfl]
    rw [findIdx_first (fun c => c = '[') _ '[' (by simp) prose1 0
      (fun c hc => by simp; exact fun h => hpre (h ▸ hc))]
    simp
  have hscan : naiveMatchEnd 0 0 (serializeVal (JsonVal.arr es) ++ prose2) =
      some (serializeVal (JsonVal.arr es)).length := by
    rw [show serializeVal (JsonVal.arr es) ++ prose2 =
      '[' :: (serializeArr es ++ (']' :: prose2)) from by
        rw [show serializeVal (JsonVal.arr es) =
          '[' :: (serializeArr es ++ [']']) from rfl]
        simp]
    rw [naiveMatchEnd_cons, if_pos rfl]
    rw [serializeArr_naive es hfree (0 + 1) (0 + 1) (']' :: prose2) (by omega)]
    rw [naiveMatchEnd_cons, if_neg (by decide), if_pos rfl, if_pos (by decide)]
    rw [show serializeVal (JsonVal.arr es) =
      '[' :: (serializeArr es ++ [']']) from rfl]
    simp only [List.length_cons, List.length_append, List.length_nil]
    congr 1
    omega
  simp only [extract_json_array, hfind]
  rw [List.drop_left]
  rw [hscan]
  simp only [List.take_left]

/-- C6 (amended): the digest (object) extractor's string-aware fallback
recovers any serialized object payload embedded in prose exactly — brace
characters inside quoted strings never miscount its nesting depth — while
the classifier (array) extractor's fallback, which is not string-aware,
recovers a serialized array payload embedded in prose exactly when the
payload's quoted strings contain no bracket characters. -/
theorem C6_extractor_roundtrip_amended :
    (∀ (fs : JsonObj) (prose1 prose2 : List Char), lcurly ∉ prose1 →
      extract_json_object (prose1 ++ (serializeVal (JsonVal.obj fs) ++ prose2)) =
        some (serializeVal (JsonVal.obj fs))) ∧
    (∀ (es : JsonArr) (prose1 prose2 : List Char), '[' ∉ prose1 →
      bracketFreeArr es = true →
      extract_json_array (prose1 ++ (serializeVal (JsonVal.arr es) ++ prose2)) =
        .ok (serializeVal (JsonVal.arr es))) :=
  ⟨extract_object_roundtrip, extract_array_roundtrip⟩

/-- Counterexample to C6 as stated: the valid payload `["]"]` — an array
holding the one-character string `]` — embedded in fence-free prose makes
the classifier extractor's bracket scan stop at the `]` INSIDE the quoted
string: it returns the slice `["]`, a strict prefix that is not the payload
(and is unparseable, so the Python call raises instead of round-tripping). -/
theorem C6_extractor_counterexample :
    ("ok [\"]\"]".toList =
      "ok ".toList ++
        (serializeVal (JsonVal.arr (JsonArr.cons (JsonVal.str [']']) JsonArr.nil)) ++
          [])) ∧
    ('[' ∉ "ok ".toList) ∧
    extract_json_array ("ok [\"]\"]".toList) = .ok ("[\"]".toList) ∧
    ("[\"]".toList ≠
      serializeVal (JsonVal.arr (JsonArr.cons (JsonVal.str [']']) JsonArr.nil))) :=
  ⟨by decide, by decide, rfl, by decide⟩

/-- Witness for the amended C6: an object payload whose string value
contains both braces is recovered exactly from prose, and a bracket-free
array payload likewise. -/
theorem C6_extractor_witness :
    (lcurly ∉ "note: ".toList) ∧
    ('[' ∉ "see ".toList) ∧
    (bracketFreeArr c6Arr = true) ∧
    (extract_json_object
        ("note: ".toList ++ (serializeVal (JsonVal.obj c6Obj) ++ " end".toList)) =
      some (serializeVal (JsonVal.obj c6Obj))) ∧
    (extract_json_array
        ("see ".toList ++ (serializeVal (JsonVal.arr c6Arr) ++ " end".toList)) =
      .ok (serializeVal (JsonVal.arr c6Arr))) := by
  refine ⟨by decide, by decide, by decide, ?_, ?_⟩
  · exact C6_extractor_roundtrip_amended.1 c6Obj _ _ (by decide)
  · exact C6_extractor_roundtrip_amended.2 c6Arr _ _ (by decide) (by decide)
